import Mathlib

/-!
Shallow embedding of `selfdrive/carrot/carrot_speed.py` (CarrotSpeed):
a persistent geographic speed cache with 1e-4° grid cells, 8 heading
buckets per cell, a signed-speed merge policy, an "old-only" gated
forward query with neighbor fallback, last-hit invalidation, and a
versioned JSON(+gzip) persistence codec.

Modelling conventions:
* Python floats are modelled as `ℚ`; epoch-second timestamps as `ℤ`.
* `round(x, 1)` (banker's rounding to one decimal) is `pyRound1`.
* A slot `[v, ts]` is `Option ℚ × Option ℤ`.
* The cell dict is an association list with Python-dict insert semantics
  (`dictInsert` keeps the position of an existing key, appends new keys).
* The trigonometric `project_point` body is a float computation; only its
  `distance <= 0` guard is repository logic, so the trig step is taken as
  an explicit function parameter (`proj`) of the query.
* Wall-clock time is passed explicitly (`now`).
* Exceptions are modelled with `Except Unit` / `Option`.
-/

namespace CarrotSpeed

/-- A slot `[v, ts]`: optional signed speed and optional integer timestamp. -/
abbrev Slot : Type := Option ℚ × Option ℤ

/-- The in-memory cell mapping `(gy, gx) ↦ 8 slots`, as an association list
with Python-dict semantics (unique keys, insertion order preserved). -/
abbrev CellsMap : Type := List ((ℤ × ℤ) × List Slot)

/-- A fresh cell record: 8 empty `[None, None]` slots (`_ensure_cell`). -/
def empty8 : List Slot :=
  List.replicate 8 ((none, none) : Slot)

/-- Dict lookup `self._cells.get((gy, gx))`. -/
def mget : CellsMap → (ℤ × ℤ) → Option (List Slot)
  | [], _ => none
  | (k, a) :: rest, key => if k = key then some a else mget rest key

/-- Dict store `self._cells[key] = arr`: replaces the value of an existing
key in place, appends a new key at the end (Python dict semantics). -/
def dictInsert : CellsMap → (ℤ × ℤ) → List Slot → CellsMap
  | [], key, arr => [(key, arr)]
  | (k, a) :: rest, key, arr =>
    if k = key then (key, arr) :: rest else (k, a) :: dictInsert rest key arr

/-- `quantize_1e4`: floor of latitude/longitude scaled by 1e4. -/
def quantize_1e4 (lat lon : ℚ) : ℤ × ℤ :=
  (⌊lat * 10000⌋, ⌊lon * 10000⌋)

/-- `heading_to_bucket`: `int((heading % 360.0) // 45.0)` clamped to `[0,7]`.
Python float `%` returns a representative in `[0, 360)`. -/
def heading_to_bucket (heading : ℚ) : ℕ :=
  let hmod := heading - 360 * ⌊heading / 360⌋
  let i := ⌊hmod / 45⌋
  if i < 0 then 0 else if i > 7 then 7 else i.toNat

/-- `project_point`: returns the origin unchanged for `distance_m <= 0`;
the positive-distance flat-earth trigonometric step is the float
computation `proj` supplied as a parameter. -/
def project_point (proj : ℚ → ℚ → ℚ → ℚ → ℚ × ℚ) (lat lon heading d : ℚ) : ℚ × ℚ :=
  if d ≤ 0 then (lat, lon) else proj lat lon heading d

/-- Round-half-to-even of a rational to an integer (Python float rounding). -/
def rhe (x : ℚ) : ℤ :=
  let f := ⌊x⌋
  let r := x - f
  if r < 1/2 then f
  else if 1/2 < r then f + 1
  else if f % 2 = 0 then f else f + 1

/-- Python `round(x, 1)`: round to the nearest tenth, ties to even. -/
def pyRound1 (x : ℚ) : ℚ :=
  ((rhe (x * 10) : ℤ) : ℚ) / 10

/-- The mutable state of a `CarrotSpeed` instance relevant to the public
API: the grid, the dirty flag, and the last-hit marker `(gy, gx, b, ts)`. -/
structure CState where
  cells : CellsMap
  dirty : Bool
  lastHit : Option (ℤ × ℤ × ℕ × ℤ)
  deriving DecidableEq

/-- State right after `__init__` with no stored payload. -/
def initState : CState :=
  { cells := [], dirty := false, lastHit := none }

/-- `_ensure_cell`: fetch-or-create, returning the updated map and the
cell record the source code then mutates. -/
def ensure_cell (m : CellsMap) (key : ℤ × ℤ) : CellsMap × List Slot :=
  match mget m key with
  | some arr => (m, arr)
  | none => (m ++ [(key, empty8)], empty8)

/-- `add_sample(lat, lon, heading_deg, speed_signed)` at wall-clock `now`. -/
def add_sample (st : CState) (lat lon heading speed_signed : ℚ) (now : ℤ) : CState :=
  let v_in := pyRound1 speed_signed
  if v_in = 0 then st
  else
    let c := quantize_1e4 lat lon
    let b := heading_to_bucket heading
    let (cells, arr) := ensure_cell st.cells c
    let old := arr.getD b (none, none)
    let newArr :=
      match old.1 with
      | none => arr.set b (some v_in, some now)
      | some v_old =>
        let new_val := pyRound1 ((v_old + v_in) / 2)
        if 0 < v_in then
          if v_old < 0 then arr.set b (some v_in, old.2)
          else arr.set b (some new_val, old.2)
        else arr.set b (some v_in, old.2)
    { st with cells := dictInsert cells c newArr, dirty := true }

/-- `_try_cell_buckets_old(arr, b)`: examine buckets `b, b-1, b+1 (mod 8)`;
skip a slot whose value or timestamp is absent, and skip a slot younger
than `thr` (`neighbor_old_threshold_s`); return the first survivor. -/
def try_cell_buckets_old (thr : ℤ) (arr : List Slot) (b : ℕ) (now : ℤ) : Option (ℚ × ℕ) :=
  [0, -1, 1].findSome? fun off =>
    let bi := (((b : ℤ) + off) % 8).toNat
    match arr.getD bi (none, none) with
    | (some v, some ts) => if now - ts < thr then none else some (v, bi)
    | _ => none

/-- `_neighbors_8`: the 8 grid-adjacent cells, `dy` then `dx` in `(-1,0,1)`,
skipping `(0, 0)`. -/
def neighbors_8 (gy gx : ℤ) : List (ℤ × ℤ) :=
  [-1, 0, 1].flatMap fun dy =>
    [-1, 0, 1].filterMap fun dx =>
      if dy = 0 ∧ dx = 0 then none else some (gy + dy, gx + dx)

/-- The candidate distance list of `query_target_dist`:
`[dist]` then each of `dist+3, dist-3, dist+6, dist-6` that is `≥ 0`. -/
def cand_ds (dist : ℚ) : List ℚ :=
  dist :: ([3, -3, 6, -6].filterMap fun off =>
    let d2 := dist + off
    if 0 ≤ d2 then some d2 else none)

/-- One iteration of the outer loop of `query_target_dist`: project the
candidate point, quantize, search the home cell (`b, b±1`, old-only), then
on a miss and with `neighbor_fallback` the 8 neighbors in scan order.
Returns the matched `(cell, value, bucket)`. -/
def query_candidate (thr : ℤ) (cells : CellsMap) (proj : ℚ → ℚ → ℚ → ℚ → ℚ × ℚ)
    (lat lon heading : ℚ) (b : ℕ) (fb : Bool) (now : ℤ) (d : ℚ) :
    Option ((ℤ × ℤ) × ℚ × ℕ) :=
  let p := project_point proj lat lon heading d
  let c := quantize_1e4 p.1 p.2
  let home :=
    match mget cells c with
    | some arr =>
      if arr.isEmpty then none
      else (try_cell_buckets_old thr arr b now).map fun (vb : ℚ × ℕ) => (c, vb.1, vb.2)
    | none => none
  match home with
  | some r => some r
  | none =>
    if fb then
      (neighbors_8 c.1 c.2).findSome? fun nk =>
        match mget cells nk with
        | some arr2 =>
          if arr2.isEmpty then none
          else (try_cell_buckets_old thr arr2 b now).map fun (vb : ℚ × ℕ) => (nk, vb.1, vb.2)
        | none => none
    else none

/-- `query_target_dist(lat, lon, heading_deg, dist, neighbor_fallback)` at
wall-clock `now`: first hit over the candidate distances wins and records
the last-hit marker; exhaustion returns `0.0` and leaves the state alone. -/
def query_target_dist (thr : ℤ) (proj : ℚ → ℚ → ℚ → ℚ → ℚ × ℚ) (st : CState)
    (lat lon heading dist : ℚ) (fb : Bool) (now : ℤ) : ℚ × CState :=
  let b := heading_to_bucket heading
  match (cand_ds dist).findSome? (query_candidate thr st.cells proj lat lon heading b fb now) with
  | some (c, v, bsel) => (v, { st with lastHit := some (c.1, c.2, bsel, now) })
  | none => (0, st)

/-- `query_target`: drives the distance query with `max(0, v_ego * lookahead_s)`. -/
def query_target (thr : ℤ) (proj : ℚ → ℚ → ℚ → ℚ → ℚ × ℚ) (st : CState)
    (lat lon heading v_ego lookahead_s : ℚ) (fb : Bool) (now : ℤ) : ℚ × CState :=
  query_target_dist thr proj st lat lon heading (max 0 (v_ego * lookahead_s)) fb now

/-- `invalidate_last_hit(window_s, action)` at wall-clock `now`: returns
the reported boolean and the successor state. -/
def invalidate_last_hit (st : CState) (window_s : ℚ) (action : String) (now : ℤ) :
    Bool × CState :=
  match st.lastHit with
  | none => (false, st)
  | some (gy, gx, b, read_ts) =>
    if ((now - read_ts : ℤ) : ℚ) > window_s then (false, st)
    else
      match mget st.cells (gy, gx) with
      | none => (false, st)
      | some arr =>
        if arr.isEmpty then (false, st)
        else
          let old := arr.getD b (none, none)
          if action = "clear" then
            (true, { st with cells := dictInsert st.cells (gy, gx) (arr.set b (none, none)),
                             dirty := true })
          else
            match old.1 with
            | some v =>
              (true, { st with cells := dictInsert st.cells (gy, gx) (arr.set b (some v, some now)),
                               dirty := true })
            | none => (false, st)

/-! ### Persistence codec

The JSON and gzip libraries are Python stdlib, external to the repository;
they enter as parameters (`dumps`/`loads`, `gzipC`/`gzipD`).  Everything
built on top of the decoded JSON value — the `v4` payload construction,
the format/bucket checks, the per-cell repair, the key parsing with
Python `int`/`float` string coercion, and the purge-on-exception policy —
is repository logic and is embedded below. -/

/-- A decoded JSON value (`json.loads` output). -/
inductive JVal where
  | null : JVal
  | bool : Bool → JVal
  | num : ℚ → JVal
  | str : List Char → JVal
  | arr : List JVal → JVal
  | obj : List (List Char × JVal) → JVal

/-- `dict.get(k)` on a decoded JSON object. -/
def jget : List (List Char × JVal) → List Char → Option JVal
  | [], _ => none
  | (k, v) :: rest, key => if k = key then some v else jget rest key

/-- ASCII whitespace stripped by Python `int(str)` / `float(str)`. -/
def isWS (c : Char) : Bool :=
  c = ' ' || c = '\t' || c = '\n' || c = '\r' || c = '\x0b' || c = '\x0c'

/-- Strip leading and trailing whitespace. -/
def trimWS (cs : List Char) : List Char :=
  ((cs.dropWhile isWS).reverse.dropWhile isWS).reverse

/-- Numeric value of a digit string (callers guarantee digits only). -/
def digitsVal (ds : List Char) : ℕ :=
  ds.foldl (fun a c => a * 10 + (c.toNat - 48)) 0

/-- A non-empty all-digit string value, else `None`. -/
def parseAllDigits (cs : List Char) : Option ℕ :=
  if cs ≠ [] ∧ cs.all Char.isDigit then some (digitsVal cs) else none

/-- Python `int(s)` on a decoded string: optional surrounding whitespace,
optional sign, decimal digits. -/
def pyIntOfStr (cs : List Char) : Option ℤ :=
  match trimWS cs with
  | [] => none
  | c :: r =>
    if c = '-' then (parseAllDigits r).map fun n => -(n : ℤ)
    else if c = '+' then (parseAllDigits r).map fun n => (n : ℤ)
    else (parseAllDigits (c :: r)).map fun n => (n : ℤ)

/-- Leading digit run and the remainder. -/
def spanDigits (cs : List Char) : List Char × List Char :=
  (cs.takeWhile Char.isDigit, cs.dropWhile Char.isDigit)

/-- Exponent part after `e`/`E` in a Python float literal. -/
def parseExpPart (cs : List Char) : Option ℤ :=
  match cs with
  | [] => none
  | c :: r =>
    if c = '-' then (parseAllDigits r).map fun n => -(n : ℤ)
    else if c = '+' then (parseAllDigits r).map fun n => (n : ℤ)
    else (parseAllDigits (c :: r)).map fun n => (n : ℤ)

/-- Unsigned Python float literal: `digits [. digits] [exp]` or
`. digits [exp]` (`inf`/`nan` have no rational counterpart and are
left out of the model). -/
def parseUFloat (cs : List Char) : Option ℚ :=
  let ip := (spanDigits cs).1
  let rest := (spanDigits cs).2
  let fpr : List Char × List Char :=
    match rest with
    | '.' :: r => spanDigits r
    | _ => ([], rest)
  let fp := fpr.1
  let rest2 := fpr.2
  if ip = [] ∧ fp = [] then none
  else
    let mant : ℚ := (digitsVal ip : ℚ) + (digitsVal fp : ℚ) / (10 ^ fp.length : ℚ)
    match rest2 with
    | [] => some mant
    | e :: r3 =>
      if e = 'e' ∨ e = 'E' then (parseExpPart r3).map fun k => mant * (10 : ℚ) ^ k
      else none

/-- Python `float(s)` on a decoded string. -/
def pyFloatOfStr (cs : List Char) : Option ℚ :=
  match trimWS cs with
  | [] => none
  | c :: r =>
    if c = '-' then (parseUFloat r).map Neg.neg
    else if c = '+' then parseUFloat r
    else parseUFloat (c :: r)

/-- Truncation toward zero, Python `int(float)`. -/
def ratTrunc (q : ℚ) : ℤ :=
  q.num.tdiv q.den

/-- Python `float(x)` on a decoded JSON value; `none` models a raised
`TypeError`/`ValueError`. -/
def pyToFloat : JVal → Option ℚ
  | .num q => some q
  | .bool b => some (if b then 1 else 0)
  | .str s => pyFloatOfStr s
  | _ => none

/-- Python `int(x)` on a decoded JSON value; `none` models a raised
`TypeError`/`ValueError`. -/
def pyToInt : JVal → Option ℤ
  | .num q => some (ratTrunc q)
  | .bool b => some (if b then 1 else 0)
  | .str s => pyIntOfStr s
  | _ => none

/-- Digit character of `d ∈ [0, 10)` as rendered by `f"{n}"`. -/
def digitCh : ℕ → Char
  | 0 => '0' | 1 => '1' | 2 => '2' | 3 => '3' | 4 => '4'
  | 5 => '5' | 6 => '6' | 7 => '7' | 8 => '8' | _ => '9'

/-- Decimal digits of a natural number, most significant first. -/
def natChars (n : ℕ) : List Char :=
  if _h : n < 10 then [digitCh n]
  else natChars (n / 10) ++ [digitCh (n % 10)]
  decreasing_by exact Nat.div_lt_self (by omega) (by omega)

/-- Decimal rendering of an integer, as `f"{z}"` produces it. -/
def intChars (z : ℤ) : List Char :=
  if z < 0 then '-' :: natChars z.natAbs else natChars z.toNat

/-- The stored cell key `f"{gy},{gx}"`. -/
def keyStr (gy gx : ℤ) : List Char :=
  intChars gy ++ [','] ++ intChars gx

/-- Python `str.split(",")`. -/
def splitComma (cs : List Char) : List (List Char) :=
  match cs with
  | [] => [[]]
  | c :: rest =>
    let ps := splitComma rest
    if c = ',' then [] :: ps
    else
      match ps with
      | [] => [[c]]
      | p :: tl => (c :: p) :: tl

/-- `gy, gx = map(int, key.split(","))`; `Except.error` models the raised
`ValueError`/`TypeError`. -/
def parseKeyE (key : List Char) : Except Unit (ℤ × ℤ) :=
  match splitComma key with
  | [a, b] =>
    match pyIntOfStr a, pyIntOfStr b with
    | some gy, some gx => .ok (gy, gx)
    | _, _ => .error ()
  | _ => .error ()

/-- Repair/decode of one stored pair: a two-element JSON array becomes a
slot (raising if `float(v)`/`int(ts)` raises); anything else becomes the
empty slot. -/
def fixPair (p : JVal) : Except Unit Slot :=
  match p with
  | .arr [vj, tsj] => do
    let v2 ← match vj with
      | .null => pure (none : Option ℚ)
      | _ => match pyToFloat vj with
        | some q => pure (some q)
        | none => throw ()
    let ts2 ← match tsj with
      | .null => pure (none : Option ℤ)
      | _ => match pyToInt tsj with
        | some n => pure (some n)
        | none => throw ()
    pure (v2, ts2)
  | _ => pure ((none, none) : Slot)

/-- Repair/decode of one stored cell array: a JSON list of exactly 8
entries is decoded pairwise, anything else is rebuilt as 8 empty slots. -/
def fixArr (arrJ : JVal) : Except Unit (List Slot) :=
  match arrJ with
  | .arr xs => if xs.length = 8 then xs.mapM fixPair else pure empty8
  | _ => pure empty8

/-- The restore loop over `data.get("cells", {}).items()`. -/
def restoreCells (cellKvs : List (List Char × JVal)) : Except Unit CellsMap :=
  cellKvs.foldlM (fun acc kv => do
    let c ← parseKeyE kv.1
    let fixed ← fixArr kv.2
    pure (dictInsert acc c fixed)) []

/-- Outcomes of the `try:` body of `_load_from_params_if_exists`. -/
inductive TryRes where
  | purgeFormat : TryRes
  | purgeBuckets : TryRes
  | restored : CellsMap → TryRes

/-- The `try:` body applied to the decoded JSON value: format tag check,
bucket-count check, then the per-cell restore; `Except.error` models any
exception raised inside the body. -/
def tryBody (j : JVal) : Except Unit TryRes :=
  match j with
  | .obj kvs =>
    match jget kvs "format".data with
    | some (.str s) =>
      if s = "v4".data then
        match (match jget kvs "dir_buckets".data with
               | none => some 8
               | some v => pyToInt v) with
        | none => .error ()
        | some buckets =>
          if buckets ≠ 8 then .ok .purgeBuckets
          else
            match (match jget kvs "cells".data with
                   | none => some []
                   | some (.obj cellKvs) => some cellKvs
                   | some _ => none) with
            | none => .error ()
            | some cellKvs =>
              match restoreCells cellKvs with
              | .ok restored => .ok (.restored restored)
              | .error e => .error e
      else .ok .purgeFormat
    | _ => .ok .purgeFormat
  | _ => .error ()

/-- Result of a startup load: the grid, the dirty flag, and whether the
stored key was removed (`Params.remove`/`Params.delete`). -/
structure LoadOutcome where
  cells : CellsMap
  dirty : Bool
  removedKey : Bool
  deriving DecidableEq

/-- Dispatch on the outcome of the `try:` body, mirroring the tail of
`_load_from_params_if_exists`: every non-restoring outcome removes the
stored key and leaves an empty grid. -/
def apply_loaded (j : JVal) : LoadOutcome :=
  match tryBody j with
  | .error _ => { cells := [], dirty := false, removedKey := true }
  | .ok .purgeFormat => { cells := [], dirty := false, removedKey := true }
  | .ok .purgeBuckets => { cells := [], dirty := false, removedKey := true }
  | .ok (.restored cs) => { cells := cs, dirty := false, removedKey := false }

/-- `_is_gzip`: two-byte magic header `0x1F 0x8B`. -/
def is_gzip (bs : List ℕ) : Bool :=
  match bs with
  | a :: b :: _ => a = 31 && b = 139
  | _ => false

/-- One slot `[v, ts]` as encoded by `_encode_payload`
(`None if v is None else float(v)`, `None if ts is None else int(ts)`). -/
def encodeSlot (s : Slot) : JVal :=
  .arr [match s.1 with | none => .null | some v => .num v,
        match s.2 with | none => .null | some ts => .num (ts : ℚ)]

/-- One cell entry of the payload: the `f"{gy},{gx}"` key and the 8 pairs. -/
def encodeCell (ca : (ℤ × ℤ) × List Slot) : List Char × JVal :=
  (keyStr ca.1.1 ca.1.2, .arr (ca.2.map encodeSlot))

/-- The JSON object built by `_encode_payload` before `json.dumps`. -/
def encode_obj (cells : CellsMap) : JVal :=
  .obj [("format".data, .str "v4".data),
        ("dir_buckets".data, .num 8),
        ("cells".data, .obj (cells.map encodeCell))]

/-- `_encode_payload`: serialize (`dumps`) and optionally gzip-compress. -/
def encode_payload (dumps : JVal → List ℕ) (gzipC : List ℕ → List ℕ)
    (use_gzip : Bool) (cells : CellsMap) : List ℕ :=
  let raw := dumps (encode_obj cells)
  if use_gzip then gzipC raw else raw

/-- `_load_from_params_if_exists`: absent or empty blob is a no-op on the
startup-empty grid; gzip is sniffed by magic bytes; a failing
decompression or JSON decode (`none`) purges, and the decoded value goes
through `apply_loaded`. -/
def load_from_params (loads : List ℕ → Option JVal) (gzipD : List ℕ → Option (List ℕ))
    (raw : Option (List ℕ)) : LoadOutcome :=
  match raw with
  | none => { cells := [], dirty := false, removedKey := false }
  | some bs =>
    if bs = [] then { cells := [], dirty := false, removedKey := false }
    else
      match (if is_gzip bs then gzipD bs else some bs) with
      | none => { cells := [], dirty := false, removedKey := true }
      | some db =>
        match loads db with
        | none => { cells := [], dirty := false, removedKey := true }
        | some j => apply_loaded j

/-! ### Spec-side mirror of the forward search (for the refinement claim)

These definitions follow the specification's words for the reader
algorithm, to be compared with the source-derived `query_target_dist`. -/

/-- The spec's candidate distances, in priority order:
`[d, d+3, d-3 (only if ≥ 0), d+6, d-6 (only if ≥ 0)]`. -/
def spec_cands (d : ℚ) : List ℚ :=
  [d] ++ [d + 3] ++ (if 0 ≤ d - 3 then [d - 3] else []) ++ [d + 6] ++
    (if 0 ≤ d - 6 then [d - 6] else [])

/-- The spec's bucket order at `b`: `b`, then `b-1`, then `b+1`, mod 8. -/
def spec_buckets (b : ℕ) : List ℕ :=
  [b % 8, (b + 7) % 8, (b + 1) % 8]

/-- The spec's neighbor scan order: the 8 grid-adjacent cells, `dy`
before `dx`, each in `{-1, 0, 1}`, skipping `(0, 0)`. -/
def spec_neighbors (gy gx : ℤ) : List (ℤ × ℤ) :=
  [(gy - 1, gx - 1), (gy - 1, gx), (gy - 1, gx + 1), (gy, gx - 1), (gy, gx + 1),
   (gy + 1, gx - 1), (gy + 1, gx), (gy + 1, gx + 1)]

/-- The spec's bucket search: the first bucket in `spec_buckets` whose
slot has both fields present and age at least `thr`. -/
def spec_bucket_search (thr : ℤ) (arr : List Slot) (b : ℕ) (now : ℤ) : Option (ℚ × ℕ) :=
  (spec_buckets b).findSome? fun bi =>
    match arr.getD bi (none, none) with
    | (some v, some ts) => if thr ≤ now - ts then some (v, bi) else none
    | _ => none

/-- The spec's whole forward search, returning the advisory speed
(`0.0` meaning no data): per candidate distance, the home cell first,
then (with fallback enabled) the neighbors; first passing value wins. -/
def spec_query (thr : ℤ) (proj : ℚ → ℚ → ℚ → ℚ → ℚ × ℚ) (cells : CellsMap)
    (lat lon heading d : ℚ) (fb : Bool) (now : ℤ) : ℚ :=
  let b := heading_to_bucket heading
  match (spec_cands d).findSome? (fun di =>
    let p := project_point proj lat lon heading di
    let c := quantize_1e4 p.1 p.2
    let home :=
      match mget cells c with
      | some arr => spec_bucket_search thr arr b now
      | none => none
    match home with
    | some vb => some vb.1
    | none =>
      if fb then
        (spec_neighbors c.1 c.2).findSome? fun nk =>
          match mget cells nk with
          | some arr => (spec_bucket_search thr arr b now).map (fun (vb : ℚ × ℕ) => vb.1)
          | none => none
      else none) with
  | some v => v
  | none => 0

/-! ### Basic lemmas about the grid store -/

/-- The slot stored at `(cell, bucket)`, empty if the cell is absent. -/
def slotAt (m : CellsMap) (k : ℤ × ℤ) (b : ℕ) : Slot :=
  ((mget m k).getD empty8).getD b (none, none)

/-- A stored payload in which the cell `0,0` holds the pair `[5.0, null]`
(value present, timestamp absent) followed by 7 empty pairs. -/
def halfPayload : JVal :=
  .obj [("format".data, .str "v4".data),
        ("dir_buckets".data, .num 8),
        ("cells".data, .obj [("0,0".data,
          .arr (.arr [.num 5, .null] :: List.replicate 7 (.arr [.null, .null])))])]

/-- The in-memory cell record produced by loading `halfPayload`. -/
def halfArr : List Slot :=
  ((some 5, none) : Slot) :: List.replicate 7 ((none, none) : Slot)

/-- A concrete non-empty grid used by the C4 witness. -/
def wCells : CellsMap :=
  [((3, -7), empty8.set 2 (some 5, some 100))]

/-- A valid-`v4` payload whose cell `0,0` stores a length-8 array in which
the first element is not a two-element pair while the second is a
well-formed `[5.0, 100]` pair. -/
def badCellPayload : JVal :=
  .obj [("format".data, .str "v4".data),
        ("dir_buckets".data, .num 8),
        ("cells".data, .obj [("0,0".data,
          .arr (.num 1 :: .arr [.num 5, .num 100] :: List.replicate 6 .null))])]

theorem mget_mem {m : CellsMap} {k : ℤ × ℤ} {arr : List Slot}
    (h : mget m k = some arr) : (k, arr) ∈ m := by
  induction m with
  | nil => simp [mget] at h
  | cons p rest ih =>
    obtain ⟨k', a'⟩ := p
    by_cases hk : k' = k
    · subst hk
      simp [mget] at h
      simp [h]
    · simp [mget, hk] at h
      simp [ih h]

theorem mget_dictInsert_self (m : CellsMap) (k : ℤ × ℤ) (arr : List Slot) :
    mget (dictInsert m k arr) k = some arr := by
  induction m with
  | nil => simp [dictInsert, mget]
  | cons p rest ih =>
    obtain ⟨k', a'⟩ := p
    by_cases hk : k' = k
    · subst hk
      simp [dictInsert, mget]
    · simp [dictInsert, hk, mget, ih]

theorem mget_dictInsert_ne (m : CellsMap) (k k' : ℤ × ℤ) (arr : List Slot)
    (h : k' ≠ k) : mget (dictInsert m k arr) k' = mget m k' := by
  induction m with
  | nil =>
    simp [dictInsert, mget]
    exact Ne.symm h
  | cons p rest ih =>
    obtain ⟨k0, a0⟩ := p
    by_cases hk : k0 = k
    · subst hk
      simp [dictInsert, mget, Ne.symm h]
    · simp [dictInsert, hk, mget, ih]

theorem mget_append_ne {m : CellsMap} {k k' : ℤ × ℤ} {arr : List Slot}
    (h : k' ≠ k) : mget (m ++ [(k, arr)]) k' = mget m k' := by
  induction m with
  | nil =>
    simp [mget]
    exact Ne.symm h
  | cons p rest ih =>
    obtain ⟨k0, a0⟩ := p
    by_cases hk : k0 = k'
    · simp [mget, hk]
    · simp [mget, hk, ih]

theorem heading_to_bucket_lt (heading : ℚ) : heading_to_bucket heading < 8 := by
  unfold heading_to_bucket
  dsimp only
  split
  · omega
  · split
    · omega
    · omega

theorem empty8_length : empty8.length = 8 := by
  simp [empty8]

theorem empty8_getD (b : ℕ) : empty8.getD b (none, none) = (none, none) := by
  rw [List.getD_eq_getElem?_getD, empty8, List.getElem?_replicate]
  split <;> rfl

theorem getD_set_self {α : Type} {l : List α} {b : ℕ} (h : b < l.length) (s d : α) :
    (l.set b s).getD b d = s := by
  rw [List.getD_eq_getElem?_getD, List.getElem?_set_self h]
  rfl

theorem getD_set_ne {α : Type} {l : List α} {i j : ℕ} (h : i ≠ j) (s d : α) :
    (l.set i s).getD j d = l.getD j d := by
  rw [List.getD_eq_getElem?_getD, List.getElem?_set_ne h, ← List.getD_eq_getElem?_getD]

theorem slotAt_of_mget {m : CellsMap} {k : ℤ × ℤ} {arr : List Slot} {b : ℕ}
    (h : mget m k = some arr) : slotAt m k b = arr.getD b (none, none) := by
  simp [slotAt, h]

theorem slotAt_of_mget_none {m : CellsMap} {k : ℤ × ℤ} {b : ℕ}
    (h : mget m k = none) : slotAt m k b = (none, none) := by
  unfold slotAt
  rw [h]
  exact empty8_getD b

/-! ### Rounding lemmas -/

theorem rhe_intCast (z : ℤ) : rhe (z : ℚ) = z := by
  unfold rhe
  rw [Int.floor_intCast]
  norm_num

theorem pyRound1_intCast (z : ℤ) : pyRound1 (z : ℚ) = (z : ℚ) := by
  unfold pyRound1
  have h : ((z : ℚ) * 10) = ((z * 10 : ℤ) : ℚ) := by push_cast; ring
  rw [h, rhe_intCast]
  push_cast
  field_simp

theorem pyRound1_zero : pyRound1 0 = 0 := by
  have := pyRound1_intCast 0
  simpa using this

/-! ### The merge policy of `add_sample` -/

/-- Slot-level characterization of `add_sample` at the touched
`(cell, bucket)`: first write stamps `now`, later writes keep the old
timestamp; a positive input averages with a non-negative stored value and
overrides a negative one; a negative input always overrides. -/
theorem add_sample_slotAt (st : CState) (lat lon heading v : ℚ) (now : ℤ)
    (hwf : ∀ p ∈ st.cells, (p.2 : List Slot).length = 8)
    (hv : pyRound1 v ≠ 0) :
    slotAt (add_sample st lat lon heading v now).cells (quantize_1e4 lat lon)
      (heading_to_bucket heading) =
    (match slotAt st.cells (quantize_1e4 lat lon) (heading_to_bucket heading) with
     | (none, _) => (some (pyRound1 v), some now)
     | (some v_old, ts_old) =>
       if 0 < pyRound1 v then
         if v_old < 0 then (some (pyRound1 v), ts_old)
         else (some (pyRound1 ((v_old + pyRound1 v) / 2)), ts_old)
       else (some (pyRound1 v), ts_old)) := by
  set c := quantize_1e4 lat lon with hc
  set b := heading_to_bucket heading with hb
  have hb8 : b < 8 := heading_to_bucket_lt heading
  unfold add_sample
  rw [if_neg hv]
  cases hm : mget st.cells c with
  | none =>
    rw [slotAt_of_mget_none hm]
    simp only [ensure_cell, hm]
    rw [slotAt_of_mget (mget_dictInsert_self _ _ _)]
    rw [empty8_getD]
    simp only []
    rw [getD_set_self (by rw [empty8_length]; exact hb8)]
  | some arr =>
    have hlen : arr.length = 8 := hwf _ (mget_mem hm)
    rw [slotAt_of_mget hm]
    simp only [ensure_cell, hm]
    rw [slotAt_of_mget (mget_dictInsert_self _ _ _)]
    rcases harr : arr.getD b (none, none) with ⟨vo, tso⟩
    cases vo with
    | none =>
      simp only [harr]
      rw [getD_set_self (by rw [hlen]; exact hb8)]
    | some v_old =>
      simp only [harr]
      by_cases hpos : 0 < pyRound1 v
      · rw [if_pos hpos, if_pos hpos]
        by_cases hneg : v_old < 0
        · rw [if_pos hneg, if_pos hneg, getD_set_self (by rw [hlen]; exact hb8)]
        · rw [if_neg hneg, if_neg hneg, getD_set_self (by rw [hlen]; exact hb8)]
      · rw [if_neg hpos, if_neg hpos, getD_set_self (by rw [hlen]; exact hb8)]

theorem mem_dictInsert {m : CellsMap} {k : ℤ × ℤ} {arr : List Slot}
    {p : (ℤ × ℤ) × List Slot} (h : p ∈ dictInsert m k arr) :
    p = (k, arr) ∨ p ∈ m := by
  induction m with
  | nil =>
    simp [dictInsert] at h
    simp [h]
  | cons q rest ih =>
    obtain ⟨k0, a0⟩ := q
    by_cases hk : k0 = k
    · subst hk
      simp [dictInsert] at h
      rcases h with h | h
      · simp [h]
      · simp [h]
    · simp [dictInsert, hk] at h
      rcases h with h | h
      · simp [h]
      · rcases ih h with h' | h'
        · simp [h']
        · simp [h']

/-- `add_sample` preserves the 8-slots-per-cell grid invariant. -/
theorem add_sample_wf (st : CState) (lat lon heading v : ℚ) (now : ℤ)
    (hwf : ∀ p ∈ st.cells, (p.2 : List Slot).length = 8) :
    ∀ p ∈ (add_sample st lat lon heading v now).cells, (p.2 : List Slot).length = 8 := by
  unfold add_sample
  dsimp only
  by_cases hz : pyRound1 v = 0
  · rw [if_pos hz]
    exact hwf
  · rw [if_neg hz]
    cases hm : mget st.cells (quantize_1e4 lat lon) with
    | none =>
      simp only [ensure_cell, hm]
      intro p hp
      rcases mem_dictInsert hp with h | h
      · subst h
        cases he : empty8.getD (heading_to_bucket heading) (none, none) with
        | mk o1 o2 =>
          cases o1
          · simp [List.length_set, empty8_length]
          · simp [apply_ite List.length, List.length_set, empty8_length]
      · rcases List.mem_append.mp h with h' | h'
        · exact hwf _ h'
        · simp at h'
          simp [h', empty8_length]
    | some arr =>
      have hlen : arr.length = 8 := hwf _ (mget_mem hm)
      simp only [ensure_cell, hm]
      intro p hp
      rcases mem_dictInsert hp with h | h
      · subst h
        cases he : arr.getD (heading_to_bucket heading) (none, none) with
        | mk o1 o2 =>
          cases o1
          · simp [List.length_set, hlen]
          · simp [apply_ite List.length, List.length_set, hlen]
      · exact hwf _ h

theorem pyRound1_five : pyRound1 (5 : ℚ) = 5 := by
  exact_mod_cast pyRound1_intCast 5

theorem pyRound1_seven : pyRound1 (7 : ℚ) = 7 := by
  exact_mod_cast pyRound1_intCast 7

theorem pyRound1_six : pyRound1 (6 : ℚ) = 6 := by
  exact_mod_cast pyRound1_intCast 6

theorem pyRound1_neg_three : pyRound1 (-3 : ℚ) = -3 := by
  exact_mod_cast pyRound1_intCast (-3)

/-- C1: Merge policy of `add_sample` at a fixed `(cell, bucket)`: a first
write into an empty slot with rounded speed `v ≠ 0` at `now` yields
`(v, now)`; a positive sample over `v_old ≥ 0` stores the 1-decimal
rounded average keeping the old timestamp; a positive sample over a
negative `v_old` replaces it with `(v_in, ts_old)`; a negative sample
unconditionally replaces with `(v_in, ts_old)`.  Concretely from an empty
slot: `+5.0` at `t0` gives `(5.0, t0)`, then `+7.0` gives `(6.0, t0)`,
then `-3.0` gives `(-3.0, t0)`. -/
theorem C1_add_sample_merge_policy (st : CState) (lat lon heading v : ℚ) (now : ℤ)
    (hwf : ∀ p ∈ st.cells, (p.2 : List Slot).length = 8) (t0 t1 t2 : ℤ) :
    (let c := quantize_1e4 lat lon
     let b := heading_to_bucket heading
     let old := slotAt st.cells c b
     let res := slotAt (add_sample st lat lon heading v now).cells c b
     (pyRound1 v ≠ 0 → old.1 = none → res = (some (pyRound1 v), some now)) ∧
     (∀ v_old ts_old, 0 < pyRound1 v → old = (some v_old, ts_old) → 0 ≤ v_old →
        res = (some (pyRound1 ((v_old + pyRound1 v) / 2)), ts_old)) ∧
     (∀ v_old ts_old, 0 < pyRound1 v → old = (some v_old, ts_old) → v_old < 0 →
        res = (some (pyRound1 v), ts_old)) ∧
     (∀ v_old ts_old, pyRound1 v < 0 → old = (some v_old, ts_old) →
        res = (some (pyRound1 v), ts_old))) ∧
    (let c := quantize_1e4 37 127
     let b := heading_to_bucket 90
     let st1 := add_sample initState 37 127 90 5 t0
     let st2 := add_sample st1 37 127 90 7 t1
     let st3 := add_sample st2 37 127 90 (-3) t2
     slotAt st1.cells c b = (some 5, some t0) ∧
     slotAt st2.cells c b = (some 6, some t0) ∧
     slotAt st3.cells c b = (some (-3), some t0)) := by
  constructor
  · dsimp only
    have key := add_sample_slotAt st lat lon heading v now hwf
    refine ⟨?_, ?_, ?_, ?_⟩
    · intro hv hold
      rw [key hv]
      rcases h : slotAt st.cells (quantize_1e4 lat lon) (heading_to_bucket heading)
        with ⟨o1, o2⟩
      rw [h] at hold
      simp at hold
      rw [hold]
    · intro v_old ts_old hpos hold hge
      rw [key (by intro hz; rw [hz] at hpos; exact lt_irrefl 0 hpos)]
      rw [hold]
      simp only []
      rw [if_pos hpos, if_neg (not_lt.mpr hge)]
    · intro v_old ts_old hpos hold hneg
      rw [key (by intro hz; rw [hz] at hpos; exact lt_irrefl 0 hpos)]
      rw [hold]
      simp only []
      rw [if_pos hpos, if_pos hneg]
    · intro v_old ts_old hneg hold
      rw [key (by intro hz; rw [hz] at hneg; exact lt_irrefl 0 hneg)]
      rw [hold]
      simp only []
      rw [if_neg (not_lt.mpr (le_of_lt hneg))]
  · dsimp only
    have hwf0 : ∀ p ∈ initState.cells, (p.2 : List Slot).length = 8 := by
      simp [initState]
    have hwf1 := add_sample_wf initState 37 127 90 5 t0 hwf0
    have hwf2 := add_sample_wf (add_sample initState 37 127 90 5 t0) 37 127 90 7 t1 hwf1
    have h1 : slotAt (add_sample initState 37 127 90 5 t0).cells (quantize_1e4 37 127)
        (heading_to_bucket 90) = (some 5, some t0) := by
      rw [add_sample_slotAt initState 37 127 90 5 t0 hwf0
        (by rw [pyRound1_five]; norm_num)]
      rw [slotAt_of_mget_none (show mget initState.cells (quantize_1e4 37 127) = none from rfl)]
      simp [pyRound1_five]
    have h2 : slotAt (add_sample (add_sample initState 37 127 90 5 t0) 37 127 90 7 t1).cells
        (quantize_1e4 37 127) (heading_to_bucket 90) = (some 6, some t0) := by
      rw [add_sample_slotAt (add_sample initState 37 127 90 5 t0) 37 127 90 7 t1 hwf1
        (by rw [pyRound1_seven]; norm_num)]
      rw [h1]
      simp only []
      rw [if_pos (by rw [pyRound1_seven]; norm_num), if_neg (by norm_num)]
      rw [pyRound1_seven]
      norm_num [pyRound1_six]
    have h3 : slotAt (add_sample (add_sample (add_sample initState 37 127 90 5 t0)
        37 127 90 7 t1) 37 127 90 (-3) t2).cells
        (quantize_1e4 37 127) (heading_to_bucket 90) = (some (-3), some t0) := by
      rw [add_sample_slotAt (add_sample (add_sample initState 37 127 90 5 t0) 37 127 90 7 t1)
        37 127 90 (-3) t2 hwf2 (by rw [pyRound1_neg_three]; norm_num)]
      rw [h2]
      simp only []
      rw [if_neg (by rw [pyRound1_neg_three]; norm_num)]
      rw [pyRound1_neg_three]
    exact ⟨h1, h2, h3⟩

/-- Witness for C1 at a concrete run: a fresh write stamps the write
time, and the documented `+5, +7, -3` chain produces `(5,t0)`, `(6,t0)`,
`(-3,t0)` with `t0 = 100`. -/
theorem C1_witness :
    slotAt (add_sample initState 37 127 90 5 100).cells (quantize_1e4 37 127)
      (heading_to_bucket 90) = (some 5, some 100) ∧
    slotAt (add_sample (add_sample (add_sample initState 37 127 90 5 100)
        37 127 90 7 200) 37 127 90 (-3) 300).cells (quantize_1e4 37 127)
      (heading_to_bucket 90) = (some (-3), some 100) := by
  have h := C1_add_sample_merge_policy initState 37 127 90 5 100 (by simp [initState]) 100 200 300
  exact ⟨h.2.1, h.2.2.2⟩

/-- C9: an input whose speed rounds to `0.0` at one decimal is a complete
no-op: the state (cells, dirty flag, last-hit marker) is unchanged and no
cell is created. -/
theorem C9_zero_speed_noop (st : CState) (lat lon heading v : ℚ) (now : ℤ)
    (h : pyRound1 v = 0) : add_sample st lat lon heading v now = st := by
  unfold add_sample
  dsimp only
  rw [if_pos h]

/-- Witness for C9 on a populated grid: a zero-speed sample at a cell that
already holds data changes nothing. -/
theorem C9_witness :
    pyRound1 0 = 0 ∧
    add_sample ⟨[((0, 0), empty8.set 0 (some 5, some 10))], true, none⟩ 0 0 0 0 99 =
      ⟨[((0, 0), empty8.set 0 (some 5, some 10))], true, none⟩ :=
  ⟨pyRound1_zero, C9_zero_speed_noop _ 0 0 0 0 99 pyRound1_zero⟩

/-! ### The old-only recency gate and query misses -/

/-- If every both-present slot of `arr` is younger than `thr`, the bucket
search finds nothing. -/
theorem try_cell_none_of_gated {thr : ℤ} {arr : List Slot} {b : ℕ} {now : ℤ}
    (h : ∀ i, i < 8 → ∀ v ts, arr.getD i (none, none) = (some v, some ts) →
      now - ts < thr) :
    try_cell_buckets_old thr arr b now = none := by
  unfold try_cell_buckets_old
  rw [List.findSome?_eq_none_iff]
  intro off hoff
  dsimp only
  have hbi : ((((b : ℤ)) + off) % 8).toNat < 8 := by omega
  rcases hs : arr.getD (((b : ℤ) + off) % 8).toNat (none, none) with ⟨o1, o2⟩
  cases o1 with
  | none => simp [hs]
  | some v =>
    cases o2 with
    | none => simp [hs]
    | some ts =>
      simp only [hs]
      rw [if_pos (h _ hbi v ts hs)]

/-- A successful bucket search returns a slot with both fields present,
taken verbatim from the array, and passing the old-only gate. -/
theorem try_cell_some_sound {thr : ℤ} {arr : List Slot} {b : ℕ} {now : ℤ}
    {v : ℚ} {bi : ℕ} (h : try_cell_buckets_old thr arr b now = some (v, bi)) :
    ∃ ts : ℤ, arr.getD bi (none, none) = (some v, some ts) ∧ thr ≤ now - ts := by
  unfold try_cell_buckets_old at h
  obtain ⟨off, _, hf⟩ := List.exists_of_findSome?_eq_some h
  dsimp only at hf
  rcases hs : arr.getD (((b : ℤ) + off) % 8).toNat (none, none) with ⟨o1, o2⟩
  rw [hs] at hf
  cases o1 with
  | none => simp at hf
  | some v' =>
    cases o2 with
    | none => simp at hf
    | some ts =>
      simp only [] at hf
      by_cases hlt : now - ts < thr
      · rw [if_pos hlt] at hf
        simp at hf
      · rw [if_neg hlt] at hf
        simp at hf
        obtain ⟨hv, hbi⟩ := hf
        subst hv
        subst hbi
        exact ⟨ts, hs, le_of_not_lt hlt⟩

/-- If the bucket search fails on every stored cell record, one query
candidate finds nothing. -/
theorem query_candidate_none {thr : ℤ} {cells : CellsMap}
    {proj : ℚ → ℚ → ℚ → ℚ → ℚ × ℚ} {lat lon heading : ℚ} {b : ℕ} {fb : Bool}
    {now : ℤ} {d : ℚ}
    (h : ∀ k arr, mget cells k = some arr → try_cell_buckets_old thr arr b now = none) :
    query_candidate thr cells proj lat lon heading b fb now d = none := by
  unfold query_candidate
  dsimp only
  have hhome : ∀ k : ℤ × ℤ,
      (match mget cells k with
       | some arr =>
         if arr.isEmpty then none
         else (try_cell_buckets_old thr arr b now).map
           fun (vb : ℚ × ℕ) => (k, vb.1, vb.2)
       | none => none) = (none : Option ((ℤ × ℤ) × ℚ × ℕ)) := by
    intro k
    cases hm : mget cells k with
    | none => rfl
    | some arr =>
      simp only []
      rw [h k arr hm]
      simp
  rw [hhome]
  show (if fb = true then _ else (none : Option ((ℤ × ℤ) × ℚ × ℕ))) = none
  cases fb with
  | false => rfl
  | true =>
    rw [if_pos rfl, List.findSome?_eq_none_iff]
    intro nk _
    cases hm : mget cells nk with
    | none => rfl
    | some arr2 =>
      simp only []
      rw [h nk arr2 hm]
      simp

/-- If the bucket search fails everywhere, the whole query returns `0.0`
and leaves the state untouched. -/
theorem query_target_dist_miss {thr : ℤ} {proj : ℚ → ℚ → ℚ → ℚ → ℚ × ℚ}
    {st : CState} {lat lon heading dist : ℚ} {fb : Bool} {now : ℤ}
    (h : ∀ k arr, mget st.cells k = some arr →
      try_cell_buckets_old thr arr (heading_to_bucket heading) now = none) :
    query_target_dist thr proj st lat lon heading dist fb now = (0, st) := by
  unfold query_target_dist
  dsimp only
  have : (cand_ds dist).findSome?
      (query_candidate thr st.cells proj lat lon heading (heading_to_bucket heading) fb now)
      = none := by
    rw [List.findSome?_eq_none_iff]
    intro d _
    exact query_candidate_none h
  rw [this]

/-- Reading any bucket of a single-slot cell record. -/
theorem getD_set_empty8 {b : ℕ} (hb : b < 8) (s : Slot) (i : ℕ) :
    (empty8.set b s).getD i (none, none) = if i = b then s else (none, none) := by
  by_cases hib : i = b
  · subst hib
    rw [if_pos rfl]
    exact getD_set_self (by rw [empty8_length]; exact hb) _ _
  · rw [if_neg hib]
    rw [getD_set_ne (fun h => hib h.symm)]
    exact empty8_getD i

/-- A single both-present slot at the target bucket that passes the gate
is found at the target bucket itself. -/
theorem try_cell_single_hit {thr : ℤ} {v : ℚ} {t : ℤ} {b : ℕ} {now : ℤ}
    (hb : b < 8) (hge : thr ≤ now - t) :
    try_cell_buckets_old thr (empty8.set b (some v, some t)) b now = some (v, b) := by
  unfold try_cell_buckets_old
  rw [List.findSome?_cons]
  dsimp only
  rw [show (((b : ℤ) + 0) % 8).toNat = b from by omega]
  rw [getD_set_empty8 hb _ b, if_pos rfl]
  dsimp only
  rw [if_neg (not_lt.mpr hge)]

/-- A candidate distance `≤ 0` stays at the origin; if the home cell is
stored, non-empty, and its bucket search succeeds, the candidate hits. -/
theorem query_candidate_home_hit {thr : ℤ} {cells : CellsMap}
    {proj : ℚ → ℚ → ℚ → ℚ → ℚ × ℚ} {lat lon heading : ℚ} {b : ℕ} {fb : Bool}
    {now : ℤ} {d : ℚ} {arr : List Slot} {v : ℚ} {bi : ℕ}
    (hd : d ≤ 0) (hm : mget cells (quantize_1e4 lat lon) = some arr)
    (hne : arr ≠ []) (hhit : try_cell_buckets_old thr arr b now = some (v, bi)) :
    query_candidate thr cells proj lat lon heading b fb now d =
      some (quantize_1e4 lat lon, v, bi) := by
  unfold query_candidate
  dsimp only
  have hp : project_point proj lat lon heading d = (lat, lon) := by
    unfold project_point
    rw [if_pos hd]
  rw [hp]
  dsimp only
  rw [hm]
  dsimp only
  rw [List.isEmpty_eq_false.mpr hne]
  rw [if_neg Bool.false_ne_true]
  rw [hhit]
  rfl

/-- C2: Query recency gate.  For a slot written at time `t`, the bucket
search returns nothing at `t + 119` and returns the slot at `t + 121`;
in general the slot is eligible exactly when `now - t ≥ thr`
(`neighbor_old_threshold_s`, default 120); at the query level a home-cell
grid with that single slot yields `0.0` at `t + 119` and the value at
`t + 121` — the home cell is gated exactly like a neighbor. -/
theorem C2_query_recency_gate (v : ℚ) (t : ℤ) (lat lon heading : ℚ)
    (proj : ℚ → ℚ → ℚ → ℚ → ℚ × ℚ) (dirt : Bool) (lh : Option (ℤ × ℤ × ℕ × ℤ))
    (fb : Bool) :
    try_cell_buckets_old 120 (empty8.set (heading_to_bucket heading) (some v, some t))
        (heading_to_bucket heading) (t + 119) = none ∧
    try_cell_buckets_old 120 (empty8.set (heading_to_bucket heading) (some v, some t))
        (heading_to_bucket heading) (t + 121) = some (v, heading_to_bucket heading) ∧
    (∀ thr now : ℤ,
      try_cell_buckets_old thr (empty8.set (heading_to_bucket heading) (some v, some t))
          (heading_to_bucket heading) now ≠ none ↔ thr ≤ now - t) ∧
    (query_target_dist 120 proj
        ⟨[(quantize_1e4 lat lon, empty8.set (heading_to_bucket heading) (some v, some t))],
          dirt, lh⟩ lat lon heading 0 fb (t + 119)).1 = 0 ∧
    (query_target_dist 120 proj
        ⟨[(quantize_1e4 lat lon, empty8.set (heading_to_bucket heading) (some v, some t))],
          dirt, lh⟩ lat lon heading 0 fb (t + 121)).1 = v := by
  have hb : heading_to_bucket heading < 8 := heading_to_bucket_lt heading
  have hgated : ∀ now : ℤ, now - t < 120 →
      try_cell_buckets_old 120 (empty8.set (heading_to_bucket heading) (some v, some t))
        (heading_to_bucket heading) now = none := by
    intro now hlt
    apply try_cell_none_of_gated
    intro i _ v' ts' hslot
    rw [getD_set_empty8 hb] at hslot
    by_cases hib : i = heading_to_bucket heading
    · rw [if_pos hib] at hslot
      have hts : ts' = t := by
        have := congrArg Prod.snd hslot
        simpa using this.symm
      omega
    · rw [if_neg hib] at hslot
      simp at hslot
  have harrne : (empty8.set (heading_to_bucket heading) (some v, some t)) ≠ [] := by
    intro h
    have := congrArg List.length h
    rw [List.length_set, empty8_length] at this
    simp at this
  refine ⟨hgated _ (by omega), try_cell_single_hit hb (by omega), ?_, ?_, ?_⟩
  · intro thr now
    constructor
    · intro hne
      by_contra hlt
      push_neg at hlt
      apply hne
      apply try_cell_none_of_gated
      intro i _ v' ts' hslot
      rw [getD_set_empty8 hb] at hslot
      by_cases hib : i = heading_to_bucket heading
      · rw [if_pos hib] at hslot
        have hts : ts' = t := by
          have := congrArg Prod.snd hslot
          simpa using this.symm
        omega
      · rw [if_neg hib] at hslot
        simp at hslot
    · intro hge
      rw [try_cell_single_hit hb hge]
      simp
  · rw [query_target_dist_miss]
    intro k arr hm
    by_cases hk : (quantize_1e4 lat lon) = k
    · have harr : arr = empty8.set (heading_to_bucket heading) (some v, some t) := by
        simp [mget, hk] at hm
        exact hm.symm
      rw [harr]
      exact hgated _ (by omega)
    · simp [mget, hk] at hm
  · unfold query_target_dist
    dsimp only
    have hcand : cand_ds (0 : ℚ) = [(0 : ℚ), 3, 6] := by
      norm_num [cand_ds, List.filterMap]
    rw [hcand, List.findSome?_cons]
    rw [query_candidate_home_hit (le_refl 0) (by simp [mget]) harrne
      (try_cell_single_hit hb (by omega))]

/-! ### Half-present slots are unreachable by queries (C10) -/

theorem getD_mem_or_default {α : Type} (l : List α) (i : ℕ) (d : α) :
    l.getD i d ∈ l ∨ l.getD i d = d := by
  by_cases h : i < l.length
  · left
    rw [List.getD_eq_getElem?_getD, List.getElem?_eq_getElem h]
    exact List.getElem_mem h
  · right
    rw [List.getD_eq_getElem?_getD, List.getElem?_eq_none (le_of_not_lt h)]
    rfl

/-- C10: a half-present slot (value without timestamp, reachable by
loading a persisted pair like `[5.0, null]`) is never returned: a
successful bucket search always yields a slot with both fields present,
so a grid whose populated slots all lack one field makes every query
return `0.0`; loading `halfPayload` really produces such a slot. -/
theorem C10_half_present_never_returned :
    (∀ (thr : ℤ) (arr : List Slot) (b : ℕ) (now : ℤ) (v : ℚ) (bi : ℕ),
      try_cell_buckets_old thr arr b now = some (v, bi) →
      ∃ ts : ℤ, arr.getD bi (none, none) = (some v, some ts) ∧ thr ≤ now - ts) ∧
    (∀ (thr : ℤ) (proj : ℚ → ℚ → ℚ → ℚ → ℚ × ℚ) (st : CState)
        (lat lon heading dist : ℚ) (fb : Bool) (now : ℤ),
      (∀ k arr, mget st.cells k = some arr → ∀ s ∈ arr, s.1 = none ∨ s.2 = none) →
      query_target_dist thr proj st lat lon heading dist fb now = (0, st)) ∧
    apply_loaded halfPayload =
      { cells := [((0, 0), halfArr)], dirty := false, removedKey := false } := by
  refine ⟨?_, ?_, by decide⟩
  · intro thr arr b now v bi h
    exact try_cell_some_sound h
  · intro thr proj st lat lon heading dist fb now h
    apply query_target_dist_miss
    intro k arr hm
    apply try_cell_none_of_gated
    intro i _ v ts hslot
    rcases getD_mem_or_default arr i ((none, none) : Slot) with hmem | hdef
    · rw [hslot] at hmem
      rcases h k arr hm _ hmem with h1 | h1
      · simp at h1
      · simp at h1
    · rw [hslot] at hdef
      simp at hdef

/-- Witness for C10: a concrete successful bucket search carries both
fields, and a concrete grid holding only the half-present slot from
`halfPayload` answers a query with `0.0`. -/
theorem C10_witness :
    (∃ ts : ℤ, (empty8.set 0 ((some 5 : Option ℚ), some (10 : ℤ))).getD 0 (none, none) =
        (some 5, some ts) ∧ 120 ≤ 200 - ts) ∧
    query_target_dist 120 (fun a b _ _ => (a, b)) ⟨[((0, 0), halfArr)], false, none⟩
      0 0 0 5 true 999 = (0, ⟨[((0, 0), halfArr)], false, none⟩) := by
  constructor
  · exact C10_half_present_never_returned.1 120 _ 0 200 5 0 (by decide)
  · apply C10_half_present_never_returned.2.1
    intro k arr hm
    have hmeq : mget [(((0 : ℤ), (0 : ℤ)), halfArr)] k =
        if ((0 : ℤ), (0 : ℤ)) = k then some halfArr else none := rfl
    rw [hmeq] at hm
    by_cases hk : ((0 : ℤ), (0 : ℤ)) = k
    · rw [if_pos hk] at hm
      have harr : arr = halfArr := (Option.some.inj hm).symm
      subst harr
      decide
    · rw [if_neg hk] at hm
      exact absurd hm (by simp)

/-! ### Invalidation of the last hit (C7, C8) -/

theorem getD_set_same_default {α : Type} (l : List α) (b : ℕ) (d : α) :
    (l.set b d).getD b d = d := by
  by_cases h : b < l.length
  · exact getD_set_self h d d
  · rw [List.getD_eq_getElem?_getD, List.getElem?_eq_none]
    · rfl
    · rw [List.length_set]
      omega

/-- C8: `invalidate_last_hit` window semantics: with no recorded last hit,
or with the hit older than `window_s`, the call returns `false` and the
state is untouched; within the window, `action="clear"` empties the
matched slot and returns `true`, and on a grid whose only populated slot
was the matched one any subsequent query (the repeated identical one in
particular) returns `0.0`. -/
theorem C8_invalidate_window (st : CState) (w : ℚ) (a : String) (now : ℤ) :
    (st.lastHit = none → invalidate_last_hit st w a now = (false, st)) ∧
    (∀ gy gx b rt, st.lastHit = some (gy, gx, b, rt) → ((now - rt : ℤ) : ℚ) > w →
      invalidate_last_hit st w a now = (false, st)) ∧
    (∀ gy gx b rt arr, st.lastHit = some (gy, gx, b, rt) →
      ¬(((now - rt : ℤ) : ℚ) > w) → mget st.cells (gy, gx) = some arr → arr ≠ [] →
      (invalidate_last_hit st w "clear" now).1 = true ∧
      slotAt (invalidate_last_hit st w "clear" now).2.cells (gy, gx) b = (none, none)) ∧
    (∀ gy gx b rt arr, st.lastHit = some (gy, gx, b, rt) →
      ¬(((now - rt : ℤ) : ℚ) > w) → st.cells = [((gy, gx), arr)] → arr ≠ [] →
      (∀ i, i ≠ b → (arr.getD i (none, none)).1 = none) →
      ∀ (thr : ℤ) (proj : ℚ → ℚ → ℚ → ℚ → ℚ × ℚ) (lat lon heading dist : ℚ)
        (fb : Bool) (now2 : ℤ),
        query_target_dist thr proj (invalidate_last_hit st w "clear" now).2
          lat lon heading dist fb now2 =
        (0, (invalidate_last_hit st w "clear" now).2)) := by
  refine ⟨?_, ?_, ?_, ?_⟩
  · intro h
    unfold invalidate_last_hit
    rw [h]
  · intro gy gx b rt hlh hgt
    unfold invalidate_last_hit
    rw [hlh]
    dsimp only
    rw [if_pos hgt]
  · intro gy gx b rt arr hlh hngt hm hne
    unfold invalidate_last_hit
    rw [hlh]
    dsimp only
    rw [if_neg hngt, hm]
    dsimp only
    rw [List.isEmpty_eq_false.mpr hne]
    rw [if_neg Bool.false_ne_true]
    rw [if_pos rfl]
    refine ⟨rfl, ?_⟩
    rw [slotAt_of_mget (mget_dictInsert_self _ _ _)]
    exact getD_set_same_default arr b (none, none)
  · intro gy gx b rt arr hlh hngt hcells hne honly
    intro thr proj lat lon heading dist fb now2
    have hres : (invalidate_last_hit st w "clear" now).2.cells =
        [((gy, gx), arr.set b (none, none))] := by
      unfold invalidate_last_hit
      rw [hlh]
      dsimp only
      rw [if_neg hngt, hcells]
      have hm : mget [((gy, gx), arr)] (gy, gx) = some arr := by
        simp [mget]
      rw [hm]
      dsimp only
      rw [List.isEmpty_eq_false.mpr hne]
      rw [if_neg Bool.false_ne_true]
      rw [if_pos rfl]
      dsimp only
      simp [dictInsert]
    apply query_target_dist_miss
    intro k arr' hm'
    rw [hres] at hm'
    have hmeq : mget [((gy, gx), arr.set b (none, none))] k =
        if (gy, gx) = k then some (arr.set b (none, none)) else none := rfl
    rw [hmeq] at hm'
    by_cases hk : (gy, gx) = k
    · rw [if_pos hk] at hm'
      have harr : arr' = arr.set b (none, none) := (Option.some.inj hm').symm
      subst harr
      apply try_cell_none_of_gated
      intro i _ v ts hslot
      by_cases hib : i = b
      · subst hib
        rw [getD_set_same_default] at hslot
        simp at hslot
      · rw [getD_set_ne (show b ≠ i from fun h => hib h.symm)] at hslot
        have := congrArg Prod.fst hslot
        rw [honly i hib] at this
        simp at this
    · rw [if_neg hk] at hm'
      exact absurd hm' (by simp)

/-- Witness for C8: a concrete no-marker call and an out-of-window call
return `false` unchanged; a within-window clear empties the slot and the
repeated query returns `0.0`. -/
theorem C8_witness :
    invalidate_last_hit initState 2 "clear" 0 = (false, initState) ∧
    invalidate_last_hit ⟨[((0, 0), empty8.set 0 (some 5, some 1))], false,
      some (0, 0, 0, 100)⟩ 2 "clear" 110 =
      (false, ⟨[((0, 0), empty8.set 0 (some 5, some 1))], false, some (0, 0, 0, 100)⟩) ∧
    (invalidate_last_hit ⟨[((0, 0), empty8.set 0 (some 5, some 1))], false,
      some (0, 0, 0, 100)⟩ 2 "clear" 101).1 = true ∧
    slotAt (invalidate_last_hit ⟨[((0, 0), empty8.set 0 (some 5, some 1))], false,
      some (0, 0, 0, 100)⟩ 2 "clear" 101).2.cells (0, 0) 0 = (none, none) ∧
    query_target_dist 120 (fun a b _ _ => (a, b))
      (invalidate_last_hit ⟨[((0, 0), empty8.set 0 (some 5, some 1))], false,
        some (0, 0, 0, 100)⟩ 2 "clear" 101).2 0 0 0 5 true 999 =
      (0, (invalidate_last_hit ⟨[((0, 0), empty8.set 0 (some 5, some 1))], false,
        some (0, 0, 0, 100)⟩ 2 "clear" 101).2) := by
  refine ⟨(C8_invalidate_window initState 2 "clear" 0).1 rfl,
    (C8_invalidate_window ⟨[((0, 0), empty8.set 0 (some 5, some 1))], false,
      some (0, 0, 0, 100)⟩ 2 "clear" 110).2.1 0 0 0 100 rfl (by decide),
    ?_, ?_, ?_⟩
  · exact ((C8_invalidate_window ⟨[((0, 0), empty8.set 0 (some 5, some 1))], false,
      some (0, 0, 0, 100)⟩ 2 "clear" 101).2.2.1 0 0 0 100
      (empty8.set 0 (some 5, some 1)) rfl (by decide) rfl (by decide)).1
  · exact ((C8_invalidate_window ⟨[((0, 0), empty8.set 0 (some 5, some 1))], false,
      some (0, 0, 0, 100)⟩ 2 "clear" 101).2.2.1 0 0 0 100
      (empty8.set 0 (some 5, some 1)) rfl (by decide) rfl (by decide)).2
  · apply (C8_invalidate_window ⟨[((0, 0), empty8.set 0 (some 5, some 1))], false,
      some (0, 0, 0, 100)⟩ 2 "clear" 101).2.2.2 0 0 0 100
      (empty8.set 0 (some 5, some 1)) rfl (by decide) rfl (by decide)
    intro i hi
    rw [getD_set_ne (show 0 ≠ i from fun h => hi h.symm), empty8_getD]

/-- C7 counterexample: a within-window `clear` on a slot that is already
empty returns `true` and sets the dirty flag although the grid is
unchanged, so the result is not "true iff the call changed the grid". -/
theorem C7_counterexample :
    (invalidate_last_hit ⟨[((0, 0), empty8)], false, some (0, 0, 0, 100)⟩
      2 "clear" 100).1 = true ∧
    (invalidate_last_hit ⟨[((0, 0), empty8)], false, some (0, 0, 0, 100)⟩
      2 "clear" 100).2.cells = [((0, 0), empty8)] ∧
    (invalidate_last_hit ⟨[((0, 0), empty8)], false, some (0, 0, 0, 100)⟩
      2 "clear" 100).2.dirty = true := by
  decide

/-- C7 amended: the boolean reports whether a write was performed, not
whether the grid changed: a `false` result leaves the state untouched and
a `true` result sets the dirty flag; with a valid last hit (marker
present, within window, cell present and non-empty) the result is `true`
iff the action is `"clear"` (which always writes, even into an already
empty slot) or a value is present (`age_bump`); `age_bump` on an absent
value returns `false` and changes nothing. -/
theorem C7_invalidate_report (st : CState) (w : ℚ) (a : String) (now : ℤ) :
    ((invalidate_last_hit st w a now).1 = false →
      (invalidate_last_hit st w a now).2 = st) ∧
    ((invalidate_last_hit st w a now).1 = true →
      (invalidate_last_hit st w a now).2.dirty = true) ∧
    (∀ gy gx b rt arr, st.lastHit = some (gy, gx, b, rt) →
      ¬(((now - rt : ℤ) : ℚ) > w) → mget st.cells (gy, gx) = some arr → arr ≠ [] →
      ((invalidate_last_hit st w a now).1 = true ↔
        (a = "clear" ∨ (arr.getD b (none, none)).1 ≠ none))) ∧
    (∀ gy gx b rt arr, st.lastHit = some (gy, gx, b, rt) →
      ¬(((now - rt : ℤ) : ℚ) > w) → mget st.cells (gy, gx) = some arr → arr ≠ [] →
      (arr.getD b (none, none)).1 = none → a ≠ "clear" →
      invalidate_last_hit st w a now = (false, st)) := by
  refine ⟨?_, ?_, ?_, ?_⟩
  · unfold invalidate_last_hit
    cases hlh : st.lastHit with
    | none => intro _; rfl
    | some tup =>
      obtain ⟨gy, gx, b, rt⟩ := tup
      dsimp only
      by_cases hgt : ((now - rt : ℤ) : ℚ) > w
      · rw [if_pos hgt]
        intro _
        rfl
      · rw [if_neg hgt]
        cases hm : mget st.cells (gy, gx) with
        | none => intro _; rfl
        | some arr =>
          dsimp only
          by_cases hemp : arr.isEmpty = true
          · rw [if_pos hemp]
            intro _
            rfl
          · rw [if_neg hemp]
            by_cases ha : a = "clear"
            · rw [if_pos ha]
              intro hfalse
              simp at hfalse
            · rw [if_neg ha]
              cases hv : (arr.getD b (none, none)).1 with
              | some v =>
                dsimp only
                intro hfalse
                simp at hfalse
              | none =>
                dsimp only
                intro _
                rfl
  · unfold invalidate_last_hit
    cases hlh : st.lastHit with
    | none => intro h; simp at h
    | some tup =>
      obtain ⟨gy, gx, b, rt⟩ := tup
      dsimp only
      by_cases hgt : ((now - rt : ℤ) : ℚ) > w
      · rw [if_pos hgt]
        intro h
        simp at h
      · rw [if_neg hgt]
        cases hm : mget st.cells (gy, gx) with
        | none => intro h; simp at h
        | some arr =>
          dsimp only
          by_cases hemp : arr.isEmpty = true
          · rw [if_pos hemp]
            intro h
            simp at h
          · rw [if_neg hemp]
            by_cases ha : a = "clear"
            · rw [if_pos ha]
              intro _
              rfl
            · rw [if_neg ha]
              cases hv : (arr.getD b (none, none)).1 with
              | some v =>
                dsimp only
                intro _
                rfl
              | none =>
                dsimp only
                intro h
                simp at h
  · intro gy gx b rt arr hlh hngt hm hne
    unfold invalidate_last_hit
    rw [hlh]
    dsimp only
    rw [if_neg hngt, hm]
    dsimp only
    rw [List.isEmpty_eq_false.mpr hne]
    rw [if_neg Bool.false_ne_true]
    by_cases ha : a = "clear"
    · rw [if_pos ha]
      simp [ha]
    · rw [if_neg ha]
      cases hv : (arr.getD b (none, none)).1 with
      | some v =>
        dsimp only
        simp [ha, hv]
      | none =>
        dsimp only
        simp [ha, hv]
  · intro gy gx b rt arr hlh hngt hm hne hv ha
    unfold invalidate_last_hit
    rw [hlh]
    dsimp only
    rw [if_neg hngt, hm]
    dsimp only
    rw [List.isEmpty_eq_false.mpr hne]
    rw [if_neg Bool.false_ne_true]
    rw [if_neg ha, hv]

/-- Witness for C7 amended: a concrete `age_bump` on an absent value
returns `false` unchanged, and a concrete valid `clear` reports `true`. -/
theorem C7_witness :
    invalidate_last_hit ⟨[((0, 0), empty8)], false, some (0, 0, 0, 100)⟩
      2 "age_bump" 100 = (false, ⟨[((0, 0), empty8)], false, some (0, 0, 0, 100)⟩) ∧
    ((invalidate_last_hit ⟨[((0, 0), empty8)], false, some (0, 0, 0, 100)⟩
      2 "clear" 100).1 = true ↔ (("clear" : String) = "clear" ∨
        ((empty8.getD 0 ((none : Option ℚ), (none : Option ℤ))).1 ≠ none))) := by
  constructor
  · exact (C7_invalidate_report _ 2 "age_bump" 100).2.2.2 0 0 0 100 empty8 rfl
      (by decide) rfl (by decide) (by decide) (by decide)
  · exact (C7_invalidate_report _ 2 "clear" 100).2.2.1 0 0 0 100 empty8 rfl
      (by decide) rfl (by decide)

/-! ### The forward search matches the spec's description (C3) -/

theorem gate_flip (thr now ts : ℤ) (x : ℚ × ℕ) :
    (if now - ts < thr then none else some x) =
    (if thr ≤ now - ts then some x else none) := by
  split_ifs with h1 h2
  · omega
  · rfl
  · rfl
  · omega

theorem try_cell_eq_spec (thr : ℤ) (arr : List Slot) (b : ℕ) (now : ℤ) (_hb : b < 8) :
    try_cell_buckets_old thr arr b now = spec_bucket_search thr arr b now := by
  have e0 : (((b : ℤ) + 0) % 8).toNat = b % 8 := by omega
  have e1 : (((b : ℤ) + -1) % 8).toNat = (b + 7) % 8 := by omega
  have e2 : (((b : ℤ) + 1) % 8).toNat = (b + 1) % 8 := by omega
  have k : ∀ bi : ℕ,
      (match arr.getD bi (none, none) with
       | (some v, some ts) => if now - ts < thr then none else some (v, bi)
       | _ => none) =
      (match arr.getD bi (none, none) with
       | (some v, some ts) => if thr ≤ now - ts then some (v, bi) else none
       | _ => none) := by
    intro bi
    rcases arr.getD bi (none, none) with ⟨o1, o2⟩
    cases o1 with
    | none => rfl
    | some v =>
      cases o2 with
      | none => rfl
      | some ts => exact gate_flip thr now ts (v, bi)
  unfold try_cell_buckets_old spec_bucket_search spec_buckets
  simp only [List.findSome?_cons, List.findSome?_nil]
  rw [e0, e1, e2, k (b % 8), k ((b + 7) % 8), k ((b + 1) % 8)]

theorem neighbors_eq_spec (gy gx : ℤ) : neighbors_8 gy gx = spec_neighbors gy gx := by
  unfold neighbors_8 spec_neighbors
  norm_num [List.flatMap, List.filterMap]
  omega

theorem cand_ds_eq_spec {d : ℚ} (hd : 0 ≤ d) : cand_ds d = spec_cands d := by
  have h3p : (0 : ℚ) ≤ d + 3 := by linarith
  have h6p : (0 : ℚ) ≤ d + 6 := by linarith
  have e3 : d + -3 = d - 3 := by ring
  have e6 : d + -6 = d - 6 := by ring
  by_cases h3 : (0 : ℚ) ≤ d - 3 <;> by_cases h6 : (0 : ℚ) ≤ d - 6 <;>
    simp [cand_ds, spec_cands, e3, e6, h3p, h6p, h3, h6]

theorem findSome?_congr_map {α β γ : Type} (f : α → Option β) (g : α → Option γ)
    (h : β → γ) (hfg : ∀ a, g a = (f a).map h) (l : List α) :
    l.findSome? g = (l.findSome? f).map h := by
  induction l with
  | nil => simp
  | cons a as ih =>
    rw [List.findSome?_cons, List.findSome?_cons, hfg a]
    cases f a with
    | some b => simp
    | none => simpa using ih

theorem spec_bucket_search_nil (thr : ℤ) (b : ℕ) (now : ℤ) :
    spec_bucket_search thr [] b now = none := by
  unfold spec_bucket_search spec_buckets
  simp [List.findSome?_cons, List.getD_nil]

theorem try_cell_nil (thr : ℤ) (b : ℕ) (now : ℤ) :
    try_cell_buckets_old thr [] b now = none := by
  apply try_cell_none_of_gated
  intro i _ v ts h
  rw [List.getD_nil] at h
  simp at h

theorem query_candidate_spec_rel (thr : ℤ) (cells : CellsMap)
    (proj : ℚ → ℚ → ℚ → ℚ → ℚ × ℚ) (lat lon heading : ℚ) (b : ℕ) (hb : b < 8)
    (fb : Bool) (now : ℤ) (di : ℚ) :
    (let p := project_point proj lat lon heading di
     let c := quantize_1e4 p.1 p.2
     let home := match mget cells c with
       | some arr => spec_bucket_search thr arr b now
       | none => none
     match home with
     | some vb => some vb.1
     | none =>
       if fb then
         (spec_neighbors c.1 c.2).findSome? fun nk =>
           match mget cells nk with
           | some arr => (spec_bucket_search thr arr b now).map (fun (vb : ℚ × ℕ) => vb.1)
           | none => none
       else none) =
    (query_candidate thr cells proj lat lon heading b fb now di).map
      (fun (r : (ℤ × ℤ) × ℚ × ℕ) => r.2.1) := by
  have hnb : ∀ gy gx : ℤ,
      ((spec_neighbors gy gx).findSome? fun nk =>
        match mget cells nk with
        | some arr => (spec_bucket_search thr arr b now).map (fun (vb : ℚ × ℕ) => vb.1)
        | none => none) =
      ((neighbors_8 gy gx).findSome? fun nk =>
        match mget cells nk with
        | some arr2 =>
          if arr2.isEmpty then none
          else (try_cell_buckets_old thr arr2 b now).map fun (vb : ℚ × ℕ) => (nk, vb.1, vb.2)
        | none => none).map (fun (r : (ℤ × ℤ) × ℚ × ℕ) => r.2.1) := by
    intro gy gx
    rw [neighbors_eq_spec]
    apply findSome?_congr_map
    intro nk
    cases hm2 : mget cells nk with
    | none => rfl
    | some arr2 =>
      simp only []
      by_cases hae : arr2.isEmpty = true
      · have harr : arr2 = [] := List.isEmpty_iff.mp hae
        subst harr
        rw [spec_bucket_search_nil]
        rw [if_pos (show ([] : List Slot).isEmpty = true from rfl)]
        rfl
      · rw [if_neg hae]
        rw [try_cell_eq_spec thr arr2 b now hb]
        rw [Option.map_map]
        rfl
  unfold query_candidate
  dsimp only
  cases hm : mget cells
      (quantize_1e4 (project_point proj lat lon heading di).1
        (project_point proj lat lon heading di).2) with
  | none =>
    simp only [hm]
    cases fb with
    | false => rfl
    | true =>
      rw [if_pos rfl, if_pos rfl]
      exact hnb _ _
  | some arr =>
    simp only [hm]
    by_cases hae : arr.isEmpty = true
    · have harr : arr = [] := List.isEmpty_iff.mp hae
      subst harr
      rw [spec_bucket_search_nil,
        if_pos (show ([] : List Slot).isEmpty = true from rfl)]
      dsimp only
      cases fb with
      | false => rfl
      | true =>
        rw [if_pos rfl, if_pos rfl]
        exact hnb _ _
    · rw [if_neg hae]
      rw [try_cell_eq_spec thr arr b now hb]
      cases hs : spec_bucket_search thr arr b now with
      | none =>
        simp only [Option.map_none]
        cases fb with
        | false => rfl
        | true =>
          rw [if_pos rfl, if_pos rfl]
          exact hnb _ _
      | some vb => rfl

/-- C3: Forward-search algorithm of `query_target_dist` for a forward
distance `d ≥ 0`: the candidate list is exactly the spec's
`[d, d+3, d-3 (if ≥0), d+6, d-6 (if ≥0)]`; the neighbor scan order is
the spec's fixed `dy`-then-`dx` order; the bucket order is the spec's
`b, b-1, b+1 (mod 8)` with the same old-only gate; the query returns the
same value as the spec's search (first pass wins), `0.0` on exhaustion;
and the speed-driven entry uses `d = max(0, v_ego * lookahead_s)`. -/
theorem C3_forward_search (thr : ℤ) (proj : ℚ → ℚ → ℚ → ℚ → ℚ × ℚ) (st : CState)
    (lat lon heading d : ℚ) (fb : Bool) (now : ℤ) (hd : 0 ≤ d) :
    cand_ds d = spec_cands d ∧
    (∀ gy gx : ℤ, neighbors_8 gy gx = spec_neighbors gy gx) ∧
    (∀ (b : ℕ) (arr : List Slot) (now2 : ℤ), b < 8 →
      try_cell_buckets_old thr arr b now2 = spec_bucket_search thr arr b now2) ∧
    (query_target_dist thr proj st lat lon heading d fb now).1 =
      spec_query thr proj st.cells lat lon heading d fb now ∧
    ((cand_ds d).findSome? (query_candidate thr st.cells proj lat lon heading
        (heading_to_bucket heading) fb now) = none →
      query_target_dist thr proj st lat lon heading d fb now = (0, st)) ∧
    (∀ v_ego la : ℚ, query_target thr proj st lat lon heading v_ego la fb now =
      query_target_dist thr proj st lat lon heading (max 0 (v_ego * la)) fb now) := by
  refine ⟨cand_ds_eq_spec hd, fun gy gx => neighbors_eq_spec gy gx,
    fun b arr now2 hb => try_cell_eq_spec thr arr b now2 hb, ?_, ?_, fun v_ego la => rfl⟩
  · unfold query_target_dist spec_query
    dsimp only
    rw [← cand_ds_eq_spec hd]
    rw [findSome?_congr_map
      (query_candidate thr st.cells proj lat lon heading (heading_to_bucket heading) fb now)
      _ (fun (r : (ℤ × ℤ) × ℚ × ℕ) => r.2.1)
      (fun di => query_candidate_spec_rel thr st.cells proj lat lon heading
        (heading_to_bucket heading) (heading_to_bucket_lt heading) fb now di)
      (cand_ds d)]
    cases (cand_ds d).findSome?
        (query_candidate thr st.cells proj lat lon heading (heading_to_bucket heading) fb now) with
    | none => rfl
    | some r =>
      obtain ⟨c, v, bs⟩ := r
      rfl
  · intro h
    unfold query_target_dist
    dsimp only
    rw [h]

/-- Witness for C3 at `d = 2`: the candidate list agrees with the spec's
and the query value agrees with the spec's search on a concrete state. -/
theorem C3_witness :
    (0 : ℚ) ≤ 2 ∧ cand_ds 2 = spec_cands 2 ∧
    (query_target_dist 120 (fun a b _ _ => (a, b)) initState 0 0 0 2 true 0).1 =
      spec_query 120 (fun a b _ _ => (a, b)) initState.cells 0 0 0 2 true 0 := by
  refine ⟨by norm_num, ?_, ?_⟩
  · exact (C3_forward_search 120 (fun a b _ _ => (a, b)) initState 0 0 0 2 true 0
      (by norm_num)).1
  · exact (C3_forward_search 120 (fun a b _ _ => (a, b)) initState 0 0 0 2 true 0
      (by norm_num)).2.2.2.1

/-! ### Decimal printing and parsing round-trips for the codec -/

theorem digitCh_toNat {d : ℕ} (hd : d < 10) : (digitCh d).toNat = 48 + d := by
  interval_cases d <;> rfl

theorem digitCh_isDigit {d : ℕ} (hd : d < 10) : (digitCh d).isDigit = true := by
  interval_cases d <;> rfl

theorem digitCh_not_ws {d : ℕ} (hd : d < 10) : isWS (digitCh d) = false := by
  interval_cases d <;> rfl

theorem digitCh_ne_comma {d : ℕ} (hd : d < 10) : digitCh d ≠ ',' := by
  interval_cases d <;> decide

theorem digitCh_ne_minus {d : ℕ} (hd : d < 10) : digitCh d ≠ '-' := by
  interval_cases d <;> decide

theorem digitCh_ne_plus {d : ℕ} (hd : d < 10) : digitCh d ≠ '+' := by
  interval_cases d <;> decide

theorem natChars_ne_nil (n : ℕ) : natChars n ≠ [] := by
  rw [natChars]
  split <;> simp

theorem natChars_mem (n : ℕ) : ∀ c ∈ natChars n, ∃ d, d < 10 ∧ c = digitCh d := by
  induction n using Nat.strong_induction_on with
  | _ n ih =>
    rw [natChars]
    split
    next h =>
      intro c hc
      simp at hc
      subst hc
      exact ⟨n, h, rfl⟩
    next h =>
      intro c hc
      rw [List.mem_append] at hc
      rcases hc with hc | hc
      · exact ih (n / 10) (Nat.div_lt_self (by omega) (by omega)) c hc
      · simp at hc
        subst hc
        exact ⟨n % 10, Nat.mod_lt _ (by omega), rfl⟩

theorem digitsVal_append_digit (xs : List Char) (c : Char) :
    digitsVal (xs ++ [c]) = digitsVal xs * 10 + (c.toNat - 48) := by
  unfold digitsVal
  rw [List.foldl_append]
  rfl

theorem digitsVal_natChars (n : ℕ) : digitsVal (natChars n) = n := by
  induction n using Nat.strong_induction_on with
  | _ n ih =>
    rw [natChars]
    split
    next h =>
      have h1 : digitsVal [digitCh n] = (digitCh n).toNat - 48 := by
        unfold digitsVal
        simp
      rw [h1, digitCh_toNat h]
      omega
    next h =>
      rw [digitsVal_append_digit, ih (n / 10) (Nat.div_lt_self (by omega) (by omega)),
        digitCh_toNat (Nat.mod_lt _ (by omega))]
      omega

theorem natChars_all_digits (n : ℕ) : ∀ c ∈ natChars n, c.isDigit = true := by
  intro c hc
  obtain ⟨d, hd, rfl⟩ := natChars_mem n c hc
  exact digitCh_isDigit hd

theorem parseAllDigits_natChars (n : ℕ) : parseAllDigits (natChars n) = some n := by
  unfold parseAllDigits
  rw [if_pos ⟨natChars_ne_nil n, List.all_eq_true.mpr (natChars_all_digits n)⟩,
    digitsVal_natChars]

theorem dropWhile_isWS_eq_self {l : List Char} (h : ∀ c ∈ l, isWS c = false) :
    l.dropWhile isWS = l := by
  cases l with
  | nil => rfl
  | cons c r =>
    rw [List.dropWhile_cons, h c (by simp)]
    simp

theorem trimWS_eq_self {l : List Char} (h : ∀ c ∈ l, isWS c = false) : trimWS l = l := by
  unfold trimWS
  rw [dropWhile_isWS_eq_self h,
    dropWhile_isWS_eq_self (fun c hc => h c (List.mem_reverse.mp hc)),
    List.reverse_reverse]

theorem intChars_mem (z : ℤ) :
    ∀ c ∈ intChars z, (∃ d, d < 10 ∧ c = digitCh d) ∨ c = '-' := by
  unfold intChars
  split
  · intro c hc
    rcases List.mem_cons.mp hc with hc | hc
    · right
      exact hc
    · left
      exact natChars_mem _ c hc
  · intro c hc
    left
    exact natChars_mem _ c hc

theorem intChars_not_ws (z : ℤ) : ∀ c ∈ intChars z, isWS c = false := by
  intro c hc
  rcases intChars_mem z c hc with ⟨d, hd, rfl⟩ | rfl
  · exact digitCh_not_ws hd
  · rfl

theorem intChars_ne_comma (z : ℤ) : ∀ c ∈ intChars z, c ≠ ',' := by
  intro c hc
  rcases intChars_mem z c hc with ⟨d, hd, rfl⟩ | rfl
  · exact digitCh_ne_comma hd
  · decide

theorem pyIntOfStr_intChars (z : ℤ) : pyIntOfStr (intChars z) = some z := by
  unfold pyIntOfStr
  rw [trimWS_eq_self (intChars_not_ws z)]
  by_cases hz : z < 0
  · rw [show intChars z = '-' :: natChars z.natAbs from by unfold intChars; rw [if_pos hz]]
    dsimp only
    rw [if_pos rfl, parseAllDigits_natChars]
    show some (-(z.natAbs : ℤ)) = some z
    have he : -(z.natAbs : ℤ) = z := by omega
    rw [he]
  · rw [show intChars z = natChars z.toNat from by unfold intChars; rw [if_neg hz]]
    cases hnc : natChars z.toNat with
    | nil => exact absurd hnc (natChars_ne_nil _)
    | cons c r =>
      have hcd : ∃ d, d < 10 ∧ c = digitCh d := by
        apply natChars_mem z.toNat
        rw [hnc]
        simp
      obtain ⟨d, hd, rfl⟩ := hcd
      dsimp only
      rw [if_neg (digitCh_ne_minus hd), if_neg (digitCh_ne_plus hd), ← hnc,
        parseAllDigits_natChars]
      show some ((z.toNat : ℤ)) = some z
      have he : (z.toNat : ℤ) = z := by omega
      rw [he]

theorem splitComma_no_comma {l : List Char} (h : ∀ c ∈ l, c ≠ ',') :
    splitComma l = [l] := by
  induction l with
  | nil => rfl
  | cons c r ih =>
    conv_lhs => rw [splitComma]
    rw [ih (fun c' hc' => h c' (List.mem_cons_of_mem _ hc'))]
    rw [if_neg (h c (by simp))]

theorem splitComma_append {xs ys : List Char} (h : ∀ c ∈ xs, c ≠ ',') :
    splitComma (xs ++ ',' :: ys) = xs :: splitComma ys := by
  induction xs with
  | nil =>
    show splitComma (',' :: ys) = [] :: splitComma ys
    conv_lhs => rw [splitComma]
    rw [if_pos rfl]
  | cons c r ih =>
    show splitComma (c :: (r ++ ',' :: ys)) = (c :: r) :: splitComma ys
    conv_lhs => rw [splitComma]
    rw [ih (fun c' hc' => h c' (List.mem_cons_of_mem _ hc'))]
    rw [if_neg (h c (by simp))]

theorem splitComma_keyStr (gy gx : ℤ) :
    splitComma (keyStr gy gx) = [intChars gy, intChars gx] := by
  unfold keyStr
  rw [List.append_assoc, List.singleton_append]
  rw [splitComma_append (intChars_ne_comma gy)]
  rw [splitComma_no_comma (intChars_ne_comma gx)]

theorem parseKeyE_keyStr (gy gx : ℤ) : parseKeyE (keyStr gy gx) = .ok (gy, gx) := by
  unfold parseKeyE
  rw [splitComma_keyStr]
  dsimp only
  rw [pyIntOfStr_intChars, pyIntOfStr_intChars]

/-! ### Serialization round-trip (C4) -/

theorem ratTrunc_intCast (z : ℤ) : ratTrunc ((z : ℤ) : ℚ) = z := by
  unfold ratTrunc
  rw [Rat.num_intCast, Rat.den_intCast, Nat.cast_one, Int.tdiv_one]

theorem fixPair_encodeSlot (s : Slot) : fixPair (encodeSlot s) = .ok s := by
  rcases s with ⟨v?, ts?⟩
  cases v? with
  | none =>
    cases ts? with
    | none => rfl
    | some ts =>
      show (Except.ok ((none : Option ℚ), some (ratTrunc ((ts : ℤ) : ℚ))) :
        Except Unit Slot) = .ok (none, some ts)
      rw [ratTrunc_intCast]
  | some v =>
    cases ts? with
    | none => rfl
    | some ts =>
      show (Except.ok ((some v : Option ℚ), some (ratTrunc ((ts : ℤ) : ℚ))) :
        Except Unit Slot) = .ok (some v, some ts)
      rw [ratTrunc_intCast]

theorem mapM_encodeSlot (arr : List Slot) :
    (arr.map encodeSlot).mapM fixPair = Except.ok arr := by
  induction arr with
  | nil => rfl
  | cons s r ih =>
    rw [List.map_cons, List.mapM_cons, fixPair_encodeSlot s, ih]
    rfl

theorem fixArr_encode (arr : List Slot) (hlen : arr.length = 8) :
    fixArr (.arr (arr.map encodeSlot)) = .ok arr := by
  unfold fixArr
  dsimp only
  rw [if_pos (by rw [List.length_map, hlen])]
  exact mapM_encodeSlot arr

theorem dictInsert_eq_append {m : CellsMap} {k : ℤ × ℤ} {arr : List Slot}
    (h : mget m k = none) : dictInsert m k arr = m ++ [(k, arr)] := by
  induction m with
  | nil => rfl
  | cons p rest ih =>
    obtain ⟨k0, a0⟩ := p
    by_cases hk : k0 = k
    · subst hk
      simp [mget] at h
    · simp [mget, hk] at h
      simp [dictInsert, hk, ih h]

theorem restoreCells_encode (cells : CellsMap)
    (hlen : ∀ q ∈ cells, (q.2 : List Slot).length = 8)
    (hnd : (cells.map Prod.fst).Nodup) :
    restoreCells (cells.map encodeCell) = .ok cells := by
  suffices h : ∀ (rest acc : CellsMap),
      (∀ q ∈ rest, (q.2 : List Slot).length = 8) →
      (∀ q ∈ rest, mget acc q.1 = none) →
      ((rest.map Prod.fst).Nodup) →
      (rest.map encodeCell).foldlM (fun acc kv => do
        let c ← parseKeyE kv.1
        let fixed ← fixArr kv.2
        pure (dictInsert acc c fixed)) acc = Except.ok (acc ++ rest) by
    have hh := h cells [] hlen (fun q _ => rfl) hnd
    simpa [restoreCells] using hh
  intro rest
  induction rest with
  | nil =>
    intro acc _ _ _
    show pure acc = Except.ok (acc ++ [])
    rw [List.append_nil]
    rfl
  | cons p r ih =>
    intro acc hlen2 hdisj hnd2
    obtain ⟨key, arr⟩ := p
    rw [List.map_cons, List.foldlM_cons]
    have hstep : (do
        let c ← parseKeyE (encodeCell (key, arr)).1
        let fixed ← fixArr (encodeCell (key, arr)).2
        pure (dictInsert acc c fixed) : Except Unit CellsMap) =
        Except.ok (acc ++ [(key, arr)]) := by
      show (do
        let c ← parseKeyE (keyStr key.1 key.2)
        let fixed ← fixArr (.arr (arr.map encodeSlot))
        pure (dictInsert acc c fixed) : Except Unit CellsMap) = Except.ok (acc ++ [(key, arr)])
      rw [parseKeyE_keyStr, fixArr_encode arr (hlen2 (key, arr) (by simp))]
      show Except.ok (dictInsert acc (key.1, key.2) arr) = Except.ok (acc ++ [(key, arr)])
      rw [dictInsert_eq_append (by exact hdisj (key, arr) (by simp))]
    rw [hstep]
    show List.foldlM (fun acc kv => do
        let c ← parseKeyE kv.1
        let fixed ← fixArr kv.2
        pure (dictInsert acc c fixed)) (acc ++ [(key, arr)]) (r.map encodeCell) =
      Except.ok (acc ++ (key, arr) :: r)
    have hres := ih (acc ++ [(key, arr)])
      (fun q hq => hlen2 q (List.mem_cons_of_mem _ hq))
      (fun q hq => by
        have hne : q.1 ≠ key := by
          intro he
          rw [List.map_cons] at hnd2
          have h1 : q.1 ∈ r.map Prod.fst := List.mem_map_of_mem Prod.fst hq
          rw [he] at h1
          exact (List.nodup_cons.mp hnd2).1 h1
        rw [mget_append_ne hne]
        exact hdisj q (List.mem_cons_of_mem _ hq))
      (by
        rw [List.map_cons] at hnd2
        exact (List.nodup_cons.mp hnd2).2)
    rw [hres]
    simp

theorem tryBody_encode (cells : CellsMap)
    (hlen : ∀ q ∈ cells, (q.2 : List Slot).length = 8)
    (hnd : (cells.map Prod.fst).Nodup) :
    tryBody (encode_obj cells) = .ok (.restored cells) := by
  have key : tryBody (encode_obj cells) =
      (match restoreCells (cells.map encodeCell) with
       | .ok r => Except.ok (TryRes.restored r)
       | .error e => .error e) := rfl
  rw [key, restoreCells_encode cells hlen hnd]

theorem is_gzip_ne_nil {bs : List ℕ} (h : is_gzip bs = true) : bs ≠ [] := by
  intro he
  rw [he] at h
  simp [is_gzip] at h

/-- C4: Serialization round-trip: encoding a non-empty well-formed grid
(8 slots per cell, unique cell keys) with the persistence codec, with or
without gzip compression, and loading the produced bytes reproduces the
identical grid — same cells in the same order, equal values and
timestamps — with a clean dirty flag and no key removal.  The `dumps`/
`loads` and `gzipC`/`gzipD` pairs are the external JSON and gzip
libraries, assumed mutually inverse, with gzip output carrying the
`0x1F 0x8B` magic and JSON text not starting with `0x1F`. -/
theorem C4_roundtrip (cells : CellsMap)
    (dumps : JVal → List ℕ) (loads : List ℕ → Option JVal)
    (gzipC : List ℕ → List ℕ) (gzipD : List ℕ → Option (List ℕ))
    (hcells8 : ∀ q ∈ cells, (q.2 : List Slot).length = 8)
    (hnd : (cells.map Prod.fst).Nodup)
    (_hne : cells ≠ [])
    (hinv : loads (dumps (encode_obj cells)) = some (encode_obj cells))
    (hnogz : is_gzip (dumps (encode_obj cells)) = false)
    (hdne : dumps (encode_obj cells) ≠ [])
    (hgzinv : ∀ bs, gzipD (gzipC bs) = some bs)
    (hgzmagic : ∀ bs, is_gzip (gzipC bs) = true) :
    ∀ ug : Bool,
      load_from_params loads gzipD (some (encode_payload dumps gzipC ug cells)) =
        { cells := cells, dirty := false, removedKey := false } := by
  have happly : apply_loaded (encode_obj cells) =
      { cells := cells, dirty := false, removedKey := false } := by
    unfold apply_loaded
    rw [tryBody_encode cells hcells8 hnd]
  intro ug
  cases ug with
  | false =>
    show load_from_params loads gzipD (some (dumps (encode_obj cells))) = _
    unfold load_from_params
    dsimp only
    rw [if_neg hdne, hnogz]
    rw [if_neg Bool.false_ne_true]
    show (match loads (dumps (encode_obj cells)) with
      | none => ({ cells := [], dirty := false, removedKey := true } : LoadOutcome)
      | some j => apply_loaded j) = { cells := cells, dirty := false, removedKey := false }
    rw [hinv]
    exact happly
  | true =>
    show load_from_params loads gzipD (some (gzipC (dumps (encode_obj cells)))) = _
    unfold load_from_params
    dsimp only
    rw [if_neg (is_gzip_ne_nil (hgzmagic _)), hgzmagic _]
    rw [if_pos rfl, hgzinv _]
    show (match loads (dumps (encode_obj cells)) with
      | none => ({ cells := [], dirty := false, removedKey := true } : LoadOutcome)
      | some j => apply_loaded j) = { cells := cells, dirty := false, removedKey := false }
    rw [hinv]
    exact happly

/-- Witness for C4 at a concrete grid, with concrete inverse `dumps`/
`loads` and `gzipC`/`gzipD` pairs, for both compression settings. -/
theorem C4_witness :
    load_from_params (fun _ => some (encode_obj wCells)) (fun bs => some (bs.drop 2))
      (some (encode_payload (fun _ => [123]) (fun bs => 31 :: 139 :: bs) true wCells)) =
      { cells := wCells, dirty := false, removedKey := false } ∧
    load_from_params (fun _ => some (encode_obj wCells)) (fun bs => some (bs.drop 2))
      (some (encode_payload (fun _ => [123]) (fun bs => 31 :: 139 :: bs) false wCells)) =
      { cells := wCells, dirty := false, removedKey := false } := by
  constructor
  · exact C4_roundtrip wCells (fun _ => [123]) (fun _ => some (encode_obj wCells))
      (fun bs => 31 :: 139 :: bs) (fun bs => some (bs.drop 2))
      (by decide) (by simp [wCells]) (by decide) rfl rfl (by decide)
      (fun bs => rfl) (fun bs => rfl) true
  · exact C4_roundtrip wCells (fun _ => [123]) (fun _ => some (encode_obj wCells))
      (fun bs => 31 :: 139 :: bs) (fun bs => some (bs.drop 2))
      (by decide) (by simp [wCells]) (by decide) rfl rfl (by decide)
      (fun bs => rfl) (fun bs => rfl) false

/-! ### Purge of foreign and corrupt payloads (C5) -/

/-- C5: foreign-format and corrupt-payload purge.  For a stored non-empty
blob whose decompression or JSON decode fails, or whose decoded value
makes the `try:` body end in a format-tag purge, a bucket-count purge, or
an exception, loading results in an empty in-memory grid with the stored
key removed.  (The load function is total, so no error ever escapes to
the caller.) -/
theorem C5_purge (loads : List ℕ → Option JVal) (gzipD : List ℕ → Option (List ℕ))
    (bs : List ℕ) (hne : bs ≠ [])
    (h : match (if is_gzip bs then gzipD bs else some bs) with
         | none => True
         | some db =>
           match loads db with
           | none => True
           | some j => tryBody j = .ok .purgeFormat ∨ tryBody j = .ok .purgeBuckets ∨
               tryBody j = .error ()) :
    load_from_params loads gzipD (some bs) =
      { cells := [], dirty := false, removedKey := true } := by
  unfold load_from_params
  dsimp only
  rw [if_neg hne]
  cases hdb : (if is_gzip bs then gzipD bs else some bs) with
  | none => rfl
  | some db =>
    rw [hdb] at h
    have h1 : (match loads db with
        | none => True
        | some j => tryBody j = Except.ok TryRes.purgeFormat ∨
            tryBody j = Except.ok TryRes.purgeBuckets ∨ tryBody j = Except.error ()) := h
    show (match loads db with
      | none => ({ cells := [], dirty := false, removedKey := true } : LoadOutcome)
      | some j => apply_loaded j) = { cells := [], dirty := false, removedKey := true }
    cases hl : loads db with
    | none => rfl
    | some j =>
      rw [hl] at h1
      have h2 : tryBody j = Except.ok TryRes.purgeFormat ∨
          tryBody j = Except.ok TryRes.purgeBuckets ∨ tryBody j = Except.error () := h1
      show apply_loaded j = _
      unfold apply_loaded
      rcases h2 with h2 | h2 | h2 <;> rw [h2]

/-- Witness for C5: a one-byte `{` blob decoded (by a concrete `loads`)
into an object with no format tag is purged. -/
theorem C5_witness :
    load_from_params (fun _ => some (.obj [])) (fun _ => none) (some [123]) =
      { cells := [], dirty := false, removedKey := true } :=
  C5_purge (fun _ => some (.obj [])) (fun _ => none) [123] (by decide) (Or.inl rfl)

/-! ### Per-cell repair on load (C6) -/

/-- C6 counterexample: loading `badCellPayload` keeps the well-formed
pair `[5.0, 100]` of the malformed cell — only the malformed elements are
emptied — so the cell is not rebuilt as 8 empty slots as claimed. -/
theorem C6_counterexample :
    (apply_loaded badCellPayload).cells =
      [((0, 0), ((none, none) : Slot) :: ((some 5, some 100) : Slot) ::
        List.replicate 6 ((none, none) : Slot))] ∧
    ¬ (apply_loaded badCellPayload).cells = [((0, 0), empty8)] := by
  constructor
  · decide
  · decide

theorem fixArr_nonlist {j : JVal} (h : match j with | JVal.arr _ => False | _ => True) :
    fixArr j = .ok empty8 := by
  cases j with
  | arr xs => exact h.elim
  | null => rfl
  | bool b => rfl
  | num q => rfl
  | str s => rfl
  | obj kvs => rfl

/-- C6 amended: a cell whose stored value is not a JSON list, or is a
list whose length is not 8, is rebuilt as 8 empty slots; within a
length-8 list each element that is not a two-element pair is individually
replaced by the empty slot (well-formed pairs are kept); none of these
cases rejects the load. -/
theorem C6_cell_repair (j : JVal) (xs : List JVal) (p : JVal) (gy gx : ℤ) :
    ((match j with | JVal.arr _ => False | _ => True) → fixArr j = .ok empty8) ∧
    (xs.length ≠ 8 → fixArr (.arr xs) = .ok empty8) ∧
    ((match p with | JVal.arr [_, _] => False | _ => True) →
      fixPair p = .ok ((none, none) : Slot)) ∧
    ((match j with | JVal.arr _ => False | _ => True) →
      restoreCells [(keyStr gy gx, j)] = .ok [((gy, gx), empty8)]) := by
  refine ⟨fun h => fixArr_nonlist h, ?_, ?_, ?_⟩
  · intro h
    unfold fixArr
    dsimp only
    rw [if_neg h]
    rfl
  · intro h
    cases p with
    | arr l =>
      rcases l with _ | ⟨a, l2⟩
      · rfl
      rcases l2 with _ | ⟨b, l3⟩
      · rfl
      rcases l3 with _ | ⟨c, l4⟩
      · exact h.elim
      · rfl
    | null => rfl
    | bool b => rfl
    | num q => rfl
    | str s => rfl
    | obj kvs => rfl
  · intro h
    unfold restoreCells
    rw [List.foldlM_cons]
    have hstep : (do
        let c ← parseKeyE (keyStr gy gx)
        let fixed ← fixArr j
        pure (dictInsert [] c fixed) : Except Unit CellsMap) =
        Except.ok [((gy, gx), empty8)] := by
      rw [parseKeyE_keyStr, fixArr_nonlist h]
      rfl
    rw [hstep]
    rfl

/-- Witness for C6 amended: a numeric cell value, a wrong-length list,
and a non-pair element each repair to empty without rejecting the load. -/
theorem C6_witness :
    fixArr (.num 3) = .ok empty8 ∧
    fixArr (.arr [.null]) = .ok empty8 ∧
    fixPair (.num 1) = .ok ((none, none) : Slot) ∧
    restoreCells [(keyStr 1 (-2), .num 3)] = .ok [((1, -2), empty8)] := by
  have h := C6_cell_repair (.num 3) [.null] (.num 1) 1 (-2)
  exact ⟨h.1 trivial, h.2.1 (by decide), h.2.2.1 trivial, h.2.2.2 trivial⟩

end CarrotSpeed
